import Mathlib

/-!
Shallow embedding of the unit-movement core of the Permafrost Engine
(src/game/movement.c, here the file "part_001") and of the formation
planner (src/game/formation.c), together with theorems settling the
frozen claims about the natural-language specification.

Modelling conventions:
* C floats are modelled as exact rationals.  Every comparison of a
  vector length against a non-negative bound is expressed on squared
  lengths, which is equivalent for exact arithmetic.
* khash tables are modelled as association lists in iteration order;
  khash guarantees key uniqueness, which appears as a hypothesis where
  a proof needs it.
* Calls into the navigation / rendering / math libraries that are not
  part of the two embedded source files are collected in an oracle
  record "Ext" of pure functions; the embedded control flow never
  depends on facts about these oracles that the source does not also
  assume.
* Engine event notifications and navigation-blocker reference count
  changes are recorded in append-only logs inside the state.
* Assertions of the C source are modelled by their NDEBUG semantics
  (execution continues); where a claim turns on an assertion the
  asserted condition is stated explicitly in the theorem.
-/

set_option allowUnsafeReducibility true

attribute [semireducible] Rat.add Rat.sub Rat.mul Rat.inv Rat.ofScientific

namespace PFMove

/-- Two-component XZ vector (vec2_t), with rational components standing
for the C floats. -/
structure Vec2 where
  x : ℚ
  z : ℚ
  deriving DecidableEq, Repr

/-- Three-component vector (vec3_t). -/
structure Vec3 where
  x : ℚ
  y : ℚ
  z : ℚ
  deriving DecidableEq, Repr

/-- Quaternion (quat_t). -/
structure Quat where
  x : ℚ
  y : ℚ
  z : ℚ
  w : ℚ
  deriving DecidableEq, Repr

def Vec2.zero : Vec2 := ⟨0, 0⟩

def Vec3.zero : Vec3 := ⟨0, 0, 0⟩

def Quat.zero : Quat := ⟨0, 0, 0, 0⟩

/-- PFM_Vec2_Add. -/
def Vec2.add (a b : Vec2) : Vec2 := ⟨a.x + b.x, a.z + b.z⟩

/-- PFM_Vec2_Sub. -/
def Vec2.sub (a b : Vec2) : Vec2 := ⟨a.x - b.x, a.z - b.z⟩

/-- Squared length of a vec2_t.  PFM_Vec2_Len is the square root of
this; the source only compares lengths against non-negative bounds, so
all such comparisons are stated on squares. -/
def Vec2.lenSq (a : Vec2) : ℚ := a.x * a.x + a.z * a.z

/-- Comparison PFM_Vec2_Len(v) < c for a bound c that is non-negative
at every use site. -/
def Vec2.lenLt (a : Vec2) (c : ℚ) : Bool := a.lenSq < c * c

/-- Comparison PFM_Vec2_Len(v) <= c. -/
def Vec2.lenLe (a : Vec2) (c : ℚ) : Bool := a.lenSq ≤ c * c

/-- Comparison PFM_Vec2_Len(v) > c. -/
def Vec2.lenGt (a : Vec2) (c : ℚ) : Bool := a.lenSq > c * c

/-- EPSILON = 1.0f/1024, movement.c. -/
def EPSILON : ℚ := 1 / 1024

/-- WAIT_TICKS = 60, movement.c. -/
def WAIT_TICKS : ℤ := 60

/-- VEL_HIST_LEN = 14, movement.c. -/
def VEL_HIST_LEN : ℕ := 14

/-- MAX_TURN_RATE = 15 degrees per tick, movement.c. -/
def MAX_TURN_RATE : ℚ := 15

/-- enum arrival_state, movement.c. -/
inductive ArrivalState where
  | moving
  | movingInFormation
  | arrived
  | seekEnemies
  | waiting
  | surroundEntity
  | enterEntityRange
  | turning
  | arrivingToCell
  deriving DecidableEq, Repr

/-- Numeric value of an arrival state, in C declaration order.  Used by
the savefile serializer, which writes the enum as an int. -/
def ArrivalState.toInt : ArrivalState → ℤ
  | .moving => 0
  | .movingInFormation => 1
  | .arrived => 2
  | .seekEnemies => 3
  | .waiting => 4
  | .surroundEntity => 5
  | .enterEntityRange => 6
  | .turning => 7
  | .arrivingToCell => 8

/-- Inverse of ArrivalState.toInt on the in-range values (the loader
stores the parsed int straight into the enum field). -/
def ArrivalState.ofInt : ℤ → ArrivalState
  | 0 => .moving
  | 1 => .movingInFormation
  | 2 => .arrived
  | 3 => .seekEnemies
  | 4 => .waiting
  | 5 => .surroundEntity
  | 6 => .enterEntityRange
  | 7 => .turning
  | _ => .arrivingToCell

/-- Subset of the entity flag bits read by the movement core
(ENTITY_FLAG_MOVABLE, ENTITY_FLAG_AIR, ENTITY_FLAG_WATER,
ENTITY_FLAG_GARRISONED, ENTITY_FLAG_COMBATABLE).  The numeric bit
assignment lives outside the embedded sources, so the flag word is
modelled as a record of booleans. -/
structure EntFlags where
  movable : Bool
  air : Bool
  water : Bool
  garrisoned : Bool
  combatable : Bool
  deriving DecidableEq, Repr

def EntFlags.none : EntFlags := ⟨false, false, false, false, false⟩

/-- struct movestate, movement.c. -/
structure Movestate where
  state : ArrivalState
  maxSpeed : ℚ
  velocity : Vec2
  nextPos : Vec3
  prevPos : Vec3
  nextRot : Quat
  prevRot : Quat
  step : ℚ
  left : ℤ
  blocking : Bool
  lastStopPos : Vec2
  lastStopRadius : ℚ
  waitPrev : ArrivalState
  waitTicksLeft : ℤ
  velHist : List Vec2
  velHistIdx : ℤ
  surroundTargetUid : ℕ
  surroundTargetPrev : Vec2
  surroundNearestPrev : Vec2
  usingSurroundField : Bool
  targetPrevPos : Vec2
  targetRange : ℚ
  targetDir : Quat
  deriving DecidableEq, Repr

/-- struct flock, movement.c.  The khash set of member uids is kept as
a list in iteration order. -/
structure Flock where
  ents : List ℕ
  targetXZ : Vec2
  destId : ℕ
  deriving DecidableEq, Repr

/-- Navigation blocker reference-count change
(M_NavBlockersIncref / M_NavBlockersDecref call), recorded in an
append-only log. -/
structure BlockerOp where
  increment : Bool
  pos : Vec2
  radius : ℚ
  factionId : ℤ
  deriving DecidableEq, Repr

/-- Engine event notifications emitted by the movement core. -/
inductive EngineEvent where
  | motionEnd (uid : ℕ)
  | motionStart (uid : ℕ)
  | entityBlocked (uid : ℕ) (radius : ℚ) (pos : Vec2)
  | entityUnblocked (uid : ℕ) (radius : ℚ) (pos : Vec2)
  | combatStanceAggressive (uid : ℕ)
  | formationRemoveUnit (uid : ℕ)
  deriving DecidableEq, Repr

/-- Movement-core state: the static variables of movement.c that the
claims range over (s_flocks, s_entity_state_table,
s_click_move_enabled) together with the gamestate tables the handlers
read and write and the two logs. -/
structure CoreState where
  flocks : List Flock
  stateTable : List (ℕ × Movestate)
  clickMoveEnabled : Bool
  positions : List (ℕ × Vec3)
  selRadiuses : List (ℕ × ℚ)
  factionIds : List (ℕ × ℤ)
  flagsTable : List (ℕ × EntFlags)
  rotations : List (ℕ × Quat)
  blockerOps : List BlockerOp
  events : List EngineEvent
  deriving DecidableEq, Repr

/-- Association-list lookup, the model of kh_get. -/
def lookupA {α : Type} (l : List (ℕ × α)) (k : ℕ) : Option α :=
  (l.find? (fun p => p.1 == k)).map (·.2)

/-- Association-list pointwise update, the model of writing through a
pointer obtained from kh_get (khash keys are unique, so at most one
entry matches). -/
def setA {α : Type} (l : List (ℕ × α)) (k : ℕ) (v : α) : List (ℕ × α) :=
  l.map (fun p => if p.1 == k then (k, v) else p)

/-- Association-list deletion, the model of kh_del. -/
def eraseA {α : Type} (l : List (ℕ × α)) (k : ℕ) : List (ℕ × α) :=
  l.filter (fun p => p.1 != k)

/-- Association-list insertion, the model of kh_put of a fresh key
(the position of a fresh key in khash iteration order is
implementation-defined; the model appends). -/
def insertA {α : Type} (l : List (ℕ × α)) (k : ℕ) (v : α) : List (ℕ × α) :=
  l ++ [(k, v)]

/-- movestate_get: lookup of a uid in s_entity_state_table. -/
def movestateGet (s : CoreState) (uid : ℕ) : Option Movestate :=
  lookupA s.stateTable uid

/-- Write back the movestate of a uid. -/
def setMovestate (s : CoreState) (uid : ℕ) (ms : Movestate) : CoreState :=
  { s with stateTable := setA s.stateTable uid ms }

/-- G_Pos_GetXZFrom: XZ components of the stored position (zero for a
missing entry; the source never takes this branch on the paths the
claims exercise). -/
def posGetXZ (s : CoreState) (uid : ℕ) : Vec2 :=
  match lookupA s.positions uid with
  | some p => ⟨p.x, p.z⟩
  | none => Vec2.zero

/-- G_GetSelectionRadiusFrom. -/
def selRadiusGet (s : CoreState) (uid : ℕ) : ℚ :=
  (lookupA s.selRadiuses uid).getD 0

/-- G_GetFactionIDFrom. -/
def factionIdGet (s : CoreState) (uid : ℕ) : ℤ :=
  (lookupA s.factionIds uid).getD 0

/-- G_FlagsGetFrom / G_FlagsGet (the model keeps one flag table). -/
def flagsGet (s : CoreState) (uid : ℕ) : EntFlags :=
  (lookupA s.flagsTable uid).getD EntFlags.none

/-- Oracle record for the calls movement.c makes into modules that are
not part of the embedded sources (navigation queries, formation
queries, quaternion math, entity registry).  Every oracle is a pure
function; the chunk dimensions CHUNK_WIDTH and CHUNK_HEIGHT are also
kept here because their factors come from headers outside the embedded
sources. -/
structure Ext where
  chunkWidth : ℚ
  chunkHeight : ℚ
  navLayerWithRadius : EntFlags → ℚ → ℕ
  closestReachableDest : ℕ → Vec2 → Vec2 → Vec2
  destIdForPos : Vec2 → ℕ → ℕ
  destIdForPosAttacking : Vec2 → ℕ → ℤ → ℕ
  positionPathable : ℕ → Vec2 → Bool
  isAdjacentToImpassable : ℕ → Vec2 → Bool
  isMaximallyClose : ℕ → Vec2 → Vec2 → ℚ → Bool
  closestPathable : ℕ → Vec2 → Option Vec2
  closestReachableAdjacentPos : ℕ → Vec2 → ℕ → Option Vec2
  closestReachableInRange : ℕ → Vec2 → Vec2 → ℚ → Vec2
  objAdjacent : ℕ → ℕ → Bool
  heightAtPoint : Vec2 → ℚ
  airUnitHeight : ℚ
  dirQuatFromVelocity : Vec2 → Quat
  entityGetRot : ℕ → Quat
  quatPitchDiffDeg : Quat → Quat → ℚ
  turnedQuat : ℚ → Quat → Quat
  formationGetForEnt : ℕ → Option ℕ
  formationTypeIsNone : ℕ → Bool
  entityExistsG : ℕ → Bool
  entityIsZombie : ℕ → Bool

/-- Trivial oracle instantiation used by concrete witnesses. -/
def Ext.trivial : Ext where
  chunkWidth := 0
  chunkHeight := 0
  navLayerWithRadius := fun _ _ => 0
  closestReachableDest := fun _ _ d => d
  destIdForPos := fun _ _ => 0
  destIdForPosAttacking := fun _ _ _ => 0
  positionPathable := fun _ _ => true
  isAdjacentToImpassable := fun _ _ => false
  isMaximallyClose := fun _ _ _ _ => false
  closestPathable := fun _ _ => none
  closestReachableAdjacentPos := fun _ _ _ => none
  closestReachableInRange := fun _ _ d _ => d
  objAdjacent := fun _ _ => false
  heightAtPoint := fun _ => 0
  airUnitHeight := 0
  dirQuatFromVelocity := fun _ => Quat.zero
  entityGetRot := fun _ => Quat.zero
  quatPitchDiffDeg := fun _ _ => 0
  turnedQuat := fun _ q => q
  formationGetForEnt := fun _ => none
  formationTypeIsNone := fun _ => true
  entityExistsG := fun _ => true
  entityIsZombie := fun _ => false

/-- ent_still: the entity is in STATE_ARRIVED or STATE_WAITING. -/
def entStill (ms : Movestate) : Bool :=
  ms.state == ArrivalState.arrived || ms.state == ArrivalState.waiting

/-- stationary: no movestate, or zero max speed. -/
def stationary (s : CoreState) (uid : ℕ) : Bool :=
  match movestateGet s uid with
  | none => true
  | some ms => ms.maxSpeed == 0

/-- entity_exists: membership of the uid in the position table. -/
def entityExists (s : CoreState) (uid : ℕ) : Bool :=
  (lookupA s.positions uid).isSome

/-- entity_block: increment the navigation blockers under the entity,
record the stop anchor and raise the blocking flag.  The source asserts
that the entity is not already blocking; with NDEBUG the body runs
unconditionally, which is what the model captures. -/
def entityBlock (s : CoreState) (uid : ℕ) : CoreState :=
  let selRadius := selRadiusGet s uid
  let pos := posGetXZ s uid
  let s := { s with blockerOps :=
    s.blockerOps ++ [⟨true, pos, selRadius, factionIdGet s uid⟩] }
  match movestateGet s uid with
  | none => s
  | some ms =>
    let s := setMovestate s uid
      { ms with blocking := true, lastStopPos := pos, lastStopRadius := selRadius }
    { s with events := s.events ++ [.entityBlocked uid selRadius pos] }

/-- entity_unblock: decrement the navigation blockers at the recorded
stop anchor and lower the blocking flag.  The source asserts that the
entity is blocking. -/
def entityUnblock (s : CoreState) (uid : ℕ) : CoreState :=
  match movestateGet s uid with
  | none => s
  | some ms =>
    let s := { s with blockerOps :=
      s.blockerOps ++ [⟨false, ms.lastStopPos, ms.lastStopRadius, factionIdGet s uid⟩] }
    let s := setMovestate s uid { ms with blocking := false }
    { s with events := s.events ++ [.entityUnblocked uid ms.lastStopRadius ms.lastStopPos] }

/-- entity_finish_moving: emit EVENT_MOTION_END, set the combat stance
for combatable entities (unless turning), record the wait bookkeeping
when entering STATE_WAITING, enter the new state with zero velocity and
optionally become a blocker. -/
def entityFinishMoving (s : CoreState) (uid : ℕ)
    (newstate : ArrivalState) (block : Bool) : CoreState :=
  match movestateGet s uid with
  | none => s
  | some ms =>
    let flags := flagsGet s uid
    let s := { s with events := s.events ++ [.motionEnd uid] }
    let s := if flags.combatable && !(newstate == ArrivalState.turning) then
        { s with events := s.events ++ [.combatStanceAggressive uid] }
      else s
    let ms := if newstate == ArrivalState.waiting then
        { ms with waitPrev := ms.state, waitTicksLeft := WAIT_TICKS }
      else ms
    let ms := { ms with state := newstate, velocity := Vec2.zero }
    let s := setMovestate s uid ms
    if block then entityBlock s uid else s

/-- flock_try_remove: remove the uid from the flock member set and
notify the formation system when it was present. -/
def flockTryRemove (s : CoreState) (f : Flock) (uid : ℕ) : Flock × CoreState :=
  if f.ents.contains uid then
    ({ f with ents := f.ents.filter (fun u => u != uid) },
     { s with events := s.events ++ [.formationRemoveUnit uid] })
  else (f, s)

/-- flock_add: insert the uid into the flock member set. -/
def flockAdd (f : Flock) (uid : ℕ) : Flock :=
  f.ents ++ [uid] |> fun es => { f with ents := es }

/-- flock_contains. -/
def flockContains (f : Flock) (uid : ℕ) : Bool :=
  f.ents.contains uid

/-- flock_for_ent: index of the first flock containing the uid. -/
def flockForEnt (s : CoreState) (uid : ℕ) : Option ℕ :=
  s.flocks.findIdx? (fun f => flockContains f uid)

/-- flock_for_dest: index of the first flock with the destination id. -/
def flockForDest (s : CoreState) (id : ℕ) : Option ℕ :=
  s.flocks.findIdx? (fun f => f.destId == id)

/-- vec_flock_del: the last element takes the place of the deleted
one, then the vector shrinks by one. -/
def vecDel (l : List Flock) (i : ℕ) : List Flock :=
  match l.getLast? with
  | none => l
  | some last => (l.set i last).dropLast

/-- One index step of remove_from_flocks: try to remove the uid from
flock i and delete the flock when it became empty. -/
def removeFromFlocksStep (uid : ℕ) (i : ℕ) (p : List Flock × CoreState) :
    List Flock × CoreState :=
  match p.1[i]? with
  | none => p
  | some f =>
    let (f', s') := flockTryRemove p.2 f uid
    let fs := p.1.set i f'
    if f'.ents.isEmpty then (vecDel fs i, s') else (fs, s')

/-- Backwards-iterating loop body of remove_from_flocks: processes the
indices i-1, i-2, ..., 0 in that order. -/
def removeFromFlocksLoop (uid : ℕ) : ℕ → List Flock × CoreState → List Flock × CoreState
  | 0, p => p
  | i + 1, p => removeFromFlocksLoop uid i (removeFromFlocksStep uid i p)

/-- remove_from_flocks: take the uid out of every flock, destroying
flocks that become empty (iterating the vector backwards with
swap-delete, as the source does). -/
def removeFromFlocks (s : CoreState) (uid : ℕ) : CoreState :=
  let (fs, s') := removeFromFlocksLoop uid s.flocks.length (s.flocks, s)
  { s' with flocks := fs }

/-- do_stop: finish moving (entering STATE_ARRIVED as a blocker) when
the entity is not already still, then leave every flock and settle in
STATE_ARRIVED. -/
def doStop (s : CoreState) (uid : ℕ) : CoreState :=
  match movestateGet s uid with
  | none => s
  | some ms =>
    let s := if !entStill ms then
        entityFinishMoving s uid ArrivalState.arrived true
      else s
    let s := removeFromFlocks s uid
    match movestateGet s uid with
    | none => s
    | some ms' => setMovestate s uid { ms' with state := ArrivalState.arrived }

/-- NULL_UID sentinel of the entity registry (all-ones 32-bit uid; the
numeric value comes from a header outside the embedded sources and no
claim depends on it). -/
def NULL_UID : ℕ := 4294967295

/-- Result and state of make_flock.  The boolean mirrors the C return
value. -/
def makeFlock (ext : Ext) (s : CoreState) (units : List ℕ) (targetXZ : Vec2)
    (layer : ℕ) (attack : Bool) (typeIsNone : Bool) : Bool × CoreState :=
  match units with
  | [] => (true, s)
  | first :: _ =>
    let targetXZ := ext.closestReachableDest layer (posGetXZ s first) targetXZ
    let s := units.foldl (fun s u => removeFromFlocks s u) s
    let start : Flock := { ents := [], targetXZ := targetXZ, destId := 0 }
    let (fl, s) := units.foldl (fun (p : Flock × CoreState) curr =>
      let (fl, s) := p
      if stationary s curr then (fl, s) else
      match movestateGet s curr with
      | none => (fl, s)
      | some ms =>
        let s := if entStill ms then
            let s := entityUnblock s curr
            { s with events := s.events ++ [.motionStart curr] }
          else s
        let fl := flockAdd fl curr
        let newState := if typeIsNone then ArrivalState.moving
          else ArrivalState.movingInFormation
        let s := match movestateGet s curr with
          | none => s
          | some ms' => setMovestate s curr { ms' with state := newState }
        (fl, s)) (start, s)
    let destId := if attack then
        ext.destIdForPosAttacking targetXZ layer (factionIdGet s first)
      else ext.destIdForPos targetXZ layer
    let fl := { fl with targetXZ := targetXZ, destId := destId }
    if fl.ents.isEmpty then (false, s) else
    match flockForDest s destId with
    | some i =>
      let s := match s.flocks[i]? with
        | none => s
        | some mf => { s with flocks := s.flocks.set i (fl.ents.foldl flockAdd mf) }
      (true, s)
    | none => (true, { s with flocks := s.flocks ++ [fl] })

/-- do_set_dest.  The handler does not guard against a uid without a
movestate; on the branch that adds the uid to an existing flock it then
dereferences the null movestate pointer, which the model signals with
none. -/
def doSetDest (ext : Ext) (s : CoreState) (uid : ℕ) (destXZ : Vec2)
    (attack : Bool) : Option CoreState :=
  let radius := selRadiusGet s uid
  let flags := flagsGet s uid
  let layer := ext.navLayerWithRadius flags radius
  let pos := posGetXZ s uid
  let destXZ := ext.closestReachableDest layer pos destXZ
  let destId := if attack then
      ext.destIdForPosAttacking destXZ layer (factionIdGet s uid)
    else ext.destIdForPos destXZ layer
  match flockForDest s destId with
  | some i =>
    if flockForEnt s uid == some i then
      match movestateGet s uid with
      | none => none
      | some ms =>
        let s := if entStill ms then
            let s := entityUnblock s uid
            { s with events := s.events ++ [.motionStart uid] }
          else s
        match movestateGet s uid with
        | none => none
        | some ms' => some (setMovestate s uid { ms' with state := ArrivalState.moving })
    else
      let s := removeFromFlocks s uid
      match s.flocks[i]? with
      | none => none
      | some fl =>
        let s := { s with flocks := s.flocks.set i (flockAdd fl uid) }
        match movestateGet s uid with
        | none => none
        | some ms =>
          let s := if entStill ms then
              let s := entityUnblock s uid
              { s with events := s.events ++ [.motionStart uid] }
            else s
          match movestateGet s uid with
          | none => none
          | some ms' => some (setMovestate s uid { ms' with state := ArrivalState.moving })
  | none =>
    let typeIsNone := match ext.formationGetForEnt uid with
      | none => true
      | some fid => ext.formationTypeIsNone fid
    some (makeFlock ext s [uid] destXZ layer attack typeIsNone).2

/-- do_set_change_direction. -/
def doSetChangeDirection (s : CoreState) (uid : ℕ) (target : Quat) : CoreState :=
  match movestateGet s uid with
  | none => s
  | some ms =>
    let s := if entStill ms then
        let s := entityUnblock s uid
        { s with events := s.events ++ [.motionStart uid] }
      else s
    match movestateGet s uid with
    | none => s
    | some ms' =>
      setMovestate s uid { ms' with state := ArrivalState.turning, targetDir := target }

/-- do_set_enter_range. -/
def doSetEnterRange (ext : Ext) (s : CoreState) (uid target : ℕ) (range : ℚ) :
    Option CoreState :=
  match movestateGet s uid with
  | none => some s
  | some _ =>
    let xzSrc := posGetXZ s uid
    let xzDst := posGetXZ s target
    let radius := selRadiusGet s uid
    let range := max 0 (range - radius)
    let delta := xzSrc.sub xzDst
    if delta.lenLe range then some (doStop s uid) else
    let flags := flagsGet s uid
    let xzTarget := ext.closestReachableInRange (ext.navLayerWithRadius flags radius)
      xzSrc xzDst (range - radius)
    match doSetDest ext s uid xzTarget false with
    | none => none
    | some s =>
      match movestateGet s uid with
      | none => some s
      | some ms =>
        some (setMovestate s uid { ms with
          state := ArrivalState.enterEntityRange,
          surroundTargetUid := target,
          targetPrevPos := xzDst,
          targetRange := range })

/-- SURROUND_LOW_WATER_X = CHUNK_WIDTH/3. -/
def lowWaterX (ext : Ext) : ℚ := ext.chunkWidth / 3

/-- SURROUND_HIGH_WATER_X = CHUNK_WIDTH/2. -/
def highWaterX (ext : Ext) : ℚ := ext.chunkWidth / 2

/-- SURROUND_LOW_WATER_Z = CHUNK_HEIGHT/3. -/
def lowWaterZ (ext : Ext) : ℚ := ext.chunkHeight / 3

/-- SURROUND_HIGH_WATER_Z = CHUNK_HEIGHT/2. -/
def highWaterZ (ext : Ext) : ℚ := ext.chunkHeight / 2

/-- using_surround_field: whether both offsets to the target are inside
the low-water band. -/
def usingSurroundFieldNow (ext : Ext) (s : CoreState) (uid target : ℕ) : Bool :=
  let posXZ := posGetXZ s uid
  let targetPosXZ := posGetXZ s target
  let dx := |targetPosXZ.x - posXZ.x|
  let dz := |targetPosXZ.z - posXZ.z|
  dx < lowWaterX ext && dz < lowWaterZ ext

/-- do_set_surround_entity. -/
def doSetSurroundEntity (ext : Ext) (s : CoreState) (uid target : ℕ) :
    Option CoreState :=
  match movestateGet s uid with
  | none => some s
  | some _ =>
    let s := doStop s uid
    let pos := posGetXZ s target
    match doSetDest ext s uid pos false with
    | none => none
    | some s =>
      match movestateGet s uid with
      | none => some s
      | some ms =>
        some (setMovestate s uid { ms with
          state := ArrivalState.surroundEntity,
          surroundTargetUid := target,
          usingSurroundField := usingSurroundFieldNow ext s uid target })

/-- do_set_seek_enemies. -/
def doSetSeekEnemies (s : CoreState) (uid : ℕ) : CoreState :=
  match movestateGet s uid with
  | none => s
  | some _ =>
    let s := removeFromFlocks s uid
    match movestateGet s uid with
    | none => s
    | some ms =>
      let s := if entStill ms then
          let s := entityUnblock s uid
          { s with events := s.events ++ [.motionStart uid] }
        else s
      match movestateGet s uid with
      | none => s
      | some ms' => setMovestate s uid { ms' with state := ArrivalState.seekEnemies }

/-- unit_height. -/
def unitHeight (ext : Ext) (s : CoreState) (uid : ℕ) (pos : Vec2) : ℚ :=
  let flags := flagsGet s uid
  if flags.water then 0
  else if flags.air then ext.heightAtPoint pos + ext.airUnitHeight
  else ext.heightAtPoint pos

/-- do_update_pos.  The position quadtree mirrors the position table
and is not read by any embedded code path, so the model elides it. -/
def doUpdatePos (ext : Ext) (s : CoreState) (uid : ℕ) (pos : Vec2) : CoreState :=
  match movestateGet s uid with
  | none => s
  | some ms =>
    let newpos : Vec3 := ⟨pos.x, unitHeight ext s uid pos, pos.z⟩
    let s := { s with positions := setA s.positions uid newpos }
    if !ms.blocking then s else
    let s := { s with blockerOps := s.blockerOps ++
      [⟨false, ms.lastStopPos, ms.lastStopRadius, factionIdGet s uid⟩,
       ⟨true, pos, ms.lastStopRadius, factionIdGet s uid⟩] }
    setMovestate s uid { ms with
      lastStopPos := pos, prevPos := newpos, nextPos := newpos }

/-- do_update_faction_id. -/
def doUpdateFactionId (s : CoreState) (uid : ℕ) (oldfac newfac : ℤ) : CoreState :=
  match movestateGet s uid with
  | none => s
  | some ms =>
    let s := { s with factionIds := setA s.factionIds uid newfac }
    if !ms.blocking then s else
    { s with blockerOps := s.blockerOps ++
      [⟨false, ms.lastStopPos, ms.lastStopRadius, oldfac⟩,
       ⟨true, ms.lastStopPos, ms.lastStopRadius, newfac⟩] }

/-- do_update_selection_radius. -/
def doUpdateSelectionRadius (s : CoreState) (uid : ℕ) (selRadius : ℚ) : CoreState :=
  match movestateGet s uid with
  | none => s
  | some ms =>
    let s := { s with selRadiuses := setA s.selRadiuses uid selRadius }
    if !ms.blocking then s else
    let s := { s with blockerOps := s.blockerOps ++
      [⟨false, ms.lastStopPos, ms.lastStopRadius, factionIdGet s uid⟩,
       ⟨true, ms.lastStopPos, selRadius, factionIdGet s uid⟩] }
    setMovestate s uid { ms with lastStopRadius := selRadius }

/-- do_set_max_speed. -/
def doSetMaxSpeed (s : CoreState) (uid : ℕ) (speed : ℚ) : CoreState :=
  match movestateGet s uid with
  | none => s
  | some ms => setMovestate s uid { ms with maxSpeed := speed }

/-- do_block (the MOVE_CMD_BLOCK body after its gating check). -/
def doBlock (s : CoreState) (uid : ℕ) (newpos : Vec3) : CoreState :=
  let s := { s with positions := setA s.positions uid newpos }
  entityBlock s uid

/-- do_add_entity.  The flag word is the value G_FlagsGet reads from
the entity registry at add time and is passed in explicitly. -/
def doAddEntity (s : CoreState) (uid : ℕ) (pos : Vec3) (selectionRadius : ℚ)
    (factionId : ℤ) (flags : EntFlags) : CoreState :=
  let s := { s with
    positions := insertA s.positions uid pos,
    selRadiuses := insertA s.selRadiuses uid selectionRadius,
    factionIds := insertA s.factionIds uid factionId,
    flagsTable := insertA s.flagsTable uid flags }
  let newMs : Movestate := {
    state := ArrivalState.arrived,
    maxSpeed := 0,
    velocity := Vec2.zero,
    nextPos := pos,
    prevPos := pos,
    nextRot := Quat.zero,
    prevRot := Quat.zero,
    step := 0,
    left := 0,
    blocking := false,
    lastStopPos := Vec2.zero,
    lastStopRadius := 0,
    waitPrev := ArrivalState.arrived,
    waitTicksLeft := 0,
    velHist := List.replicate VEL_HIST_LEN Vec2.zero,
    velHistIdx := 0,
    surroundTargetUid := 0,
    surroundTargetPrev := Vec2.zero,
    surroundNearestPrev := Vec2.zero,
    usingSurroundField := false,
    targetPrevPos := Vec2.zero,
    targetRange := 0,
    targetDir := Quat.zero }
  let s := { s with stateTable := insertA s.stateTable uid newMs }
  entityBlock s uid

/-- do_remove_entity. -/
def doRemoveEntity (s : CoreState) (uid : ℕ) : CoreState :=
  match movestateGet s uid with
  | none => s
  | some _ =>
    let flags := flagsGet s uid
    let s := doStop s uid
    let s := if !flags.garrisoned then entityUnblock s uid else s
    { s with stateTable := eraseA s.stateTable uid }

/-- MOVE_CMD_UNBLOCK case of move_process_cmds: unblock only when the
entity is currently blocking. -/
def processUnblockCmd (s : CoreState) (uid : ℕ) : CoreState :=
  match movestateGet s uid with
  | some ms => if ms.blocking then entityUnblock s uid else s
  | none => s

/-- MOVE_CMD_BLOCK case of move_process_cmds: block only when the
entity is not currently blocking. -/
def processBlockCmd (s : CoreState) (uid : ℕ) (pos : Vec3) : CoreState :=
  match movestateGet s uid with
  | some ms => if !ms.blocking then doBlock s uid pos else s
  | none => s

/-- PFM_Vec3_Add. -/
def Vec3.add (a b : Vec3) : Vec3 := ⟨a.x + b.x, a.y + b.y, a.z + b.z⟩

/-- PFM_Vec3_Sub. -/
def Vec3.sub (a b : Vec3) : Vec3 := ⟨a.x - b.x, a.y - b.y, a.z - b.z⟩

/-- PFM_Vec3_Scale. -/
def Vec3.scale (a : Vec3) (c : ℚ) : Vec3 := ⟨a.x * c, a.y * c, a.z * c⟩

/-- enum movestate_flags, one boolean per UPDATE_SET_ bit. -/
structure PatchFlags where
  setState : Bool := false
  setVelocity : Bool := false
  setPosition : Bool := false
  setRotation : Bool := false
  setNextPos : Bool := false
  setPrevPos : Bool := false
  setStep : Bool := false
  setLeft : Bool := false
  setNextRot : Bool := false
  setPrevRot : Bool := false
  setDest : Bool := false
  setTargetPrev : Bool := false
  setMoving : Bool := false
  setTargetDir : Bool := false
  deriving DecidableEq, Repr

/-- struct movestate_patch.  Fields that the C code leaves
uninitialized default to zero; they are only read under the
corresponding flag. -/
structure Patch where
  flags : PatchFlags := {}
  nextState : ArrivalState := ArrivalState.moving
  nextVelocity : Vec2 := Vec2.zero
  nextPos : Vec3 := Vec3.zero
  nextRot : Quat := Quat.zero
  nextBlock : Bool := false
  nextPpos : Vec3 := Vec3.zero
  nextNpos : Vec3 := Vec3.zero
  nextStep : ℚ := 0
  nextLeft : ℚ := 0
  nextNrot : Quat := Quat.zero
  nextProt : Quat := Quat.zero
  nextDest : Vec2 := Vec2.zero
  nextAttack : Bool := false
  nextTargetPrev : Vec2 := Vec2.zero
  nextTargetDir : Quat := Quat.zero
  deriving DecidableEq, Repr

/-- Formation-related inputs of a work item (struct formation_state as
sampled by move_do_tick; the fields entity_compute_update reads). -/
structure FormationStateIn where
  fid : Option ℕ := none
  assignmentReady : Bool := false
  assignedToCell : Bool := false
  inRangeOfCell : Bool := false
  arrivedAtCell : Bool := false
  targetOrientQ : Quat := Quat.zero
  deriving DecidableEq, Repr

/-- update_vel_hist: write the new velocity into the ring buffer and
advance the index modulo VEL_HIST_LEN. -/
def updateVelHist (ms : Movestate) (vnew : Vec2) : Movestate :=
  { ms with
    velHist := ms.velHist.set ms.velHistIdx.toNat vnew,
    velHistIdx := (ms.velHistIdx + 1) % (VEL_HIST_LEN : ℤ) }

/-- vel_wma: weighted moving average of the velocity history, weights
VEL_HIST_LEN-i for the i-th most recent sample. -/
def velWma (ms : Movestate) : Vec2 :=
  let pairs := (List.range VEL_HIST_LEN).map (fun i =>
    (ms.velHist.getD ((ms.velHistIdx + (i : ℤ)) % (VEL_HIST_LEN : ℤ)).toNat Vec2.zero,
     ((VEL_HIST_LEN : ℚ) - (i : ℚ))))
  let acc := pairs.foldl (fun (r : Vec2) p => r.add ⟨p.1.x * p.2, p.1.z * p.2⟩) Vec2.zero
  let denom := pairs.foldl (fun (d : ℚ) p => d + p.2) 0
  if denom > EPSILON then ⟨acc.x / denom, acc.z / denom⟩ else acc

/-- interpolate_positions. -/
def interpolatePositions (src dst : Vec3) (fraction : ℚ) : Vec3 :=
  if |1 - fraction| < EPSILON then dst
  else src.add ((dst.sub src).scale fraction)

/-- new_pos_for_vel. -/
def newPosForVel (s : CoreState) (uid : ℕ) (velocity : Vec2) : Vec2 :=
  (posGetXZ s uid).add velocity

/-- ADJACENCY_SEP_DIST = 5.0f. -/
def ADJACENCY_SEP_DIST : ℚ := 5

/-- adjacent_flock_members: members of the flock whose distance to the
entity is at most the sum of the selection radii plus
ADJACENCY_SEP_DIST. -/
def adjacentFlockMembers (s : CoreState) (uid : ℕ) (fl : Flock) : List ℕ :=
  fl.ents.filter (fun curr =>
    curr != uid &&
    ((posGetXZ s uid).sub (posGetXZ s curr)).lenLe
      (selRadiusGet s uid + selRadiusGet s curr + ADJACENCY_SEP_DIST))

/-- arrived: within 1.5 selection radii of the flock target, or pinned
against impassable terrain maximally close to it, or within the
threshold of the closest pathable position to the target. -/
def arrivedAt (ext : Ext) (s : CoreState) (uid : ℕ) (xzPos : Vec2) : Bool :=
  match flockForEnt s uid >>= (s.flocks[·]?) with
  | none => false
  | some fl =>
    let diffToTarget := fl.targetXZ.sub xzPos
    let radius := selRadiusGet s uid
    let arriveThresh := radius * (3 / 2)
    let flags := flagsGet s uid
    let layer := ext.navLayerWithRadius flags radius
    if diffToTarget.lenLt arriveThresh
       || (ext.isAdjacentToImpassable layer xzPos
           && ext.isMaximallyClose layer xzPos fl.targetXZ arriveThresh) then
      true
    else
      match ext.closestPathable layer fl.targetXZ with
      | some nearest => (nearest.sub xzPos).lenLt arriveThresh
      | none => false

/-- Entity_GetRot / Entity_SetRot read and write the rotation table. -/
def rotGet (s : CoreState) (uid : ℕ) : Quat :=
  (lookupA s.rotations uid).getD Quat.zero

/-- Truncation of a C float to int (toward zero), used when the float
patch field next_left is stored into the int field left. -/
def ratTruncToInt (q : ℚ) : ℤ :=
  if q ≥ 0 then ⌊q⌋ else -⌊-q⌋

/-- entity_compute_update: derive the movestate patch for one entity
from its new velocity, desired velocity and formation inputs.  The
source mutates the movestate directly in the STATE_WAITING branch
(wait_ticks_left countdown) and in the STATE_SURROUND_ENTITY branch
(previous target and nearest positions), so the function returns the
updated state together with the patch. -/
def entityComputeUpdate (ext : Ext) (hz : ℕ) (s : CoreState) (uid : ℕ)
    (newVel vdes : Vec2) (inp : FormationStateIn) : CoreState × Patch :=
  match movestateGet s uid with
  | none => (s, {})
  | some ms =>
    let p : Patch := {}
    let p := if ms.left > 0 then
        { p with
          flags := { p.flags with setPosition := true, setRotation := true, setLeft := true }, nextPos := ms.nextPos, nextRot := ms.nextRot, nextLeft := 0 }
      else p
    let newPosXZ := newPosForVel s uid newVel
    let radius := selRadiusGet s uid
    let flags := flagsGet s uid
    let layer := ext.navLayerWithRadius flags radius
    if flags.garrisoned then
      if !entStill ms then
        (s, { p with
          flags := { p.flags with setState := true }, nextState := ArrivalState.arrived, nextBlock := false })
      else (s, p)
    else
    let moveRes : Patch × Vec2 :=
      if newVel.lenGt 0 && ext.positionPathable layer newPosXZ then
        let newPos : Vec3 := ⟨newPosXZ.x, unitHeight ext s uid newPosXZ, newPosXZ.z⟩
        let p := { p with
          flags := { p.flags with
            setPrevPos := true, setNextPos := true, setStep := true, setLeft := true }, nextPpos := ms.nextPos, nextNpos := newPos,
          nextStep := 1 / ((20 / hz : ℕ) : ℚ),
          nextLeft := (((20 / hz : ℕ) : ℚ) - 1) }
        let stepRes : Patch × Vec2 :=
          if p.nextLeft = (0 : ℚ) then
            ({ p with flags := { p.flags with setPosition := true }, nextPos := newPos },
             newPosXZ)
          else
            let intermediate := interpolatePositions p.nextPpos p.nextNpos ms.step
            ({ p with flags := { p.flags with setPosition := true }, nextPos := intermediate },
             (⟨intermediate.x, intermediate.z⟩ : Vec2))
        let p := stepRes.1
        let p := { p with
          flags := { p.flags with setVelocity := true }, nextVelocity := newVel }
        let p := { p with
          flags := { p.flags with setPrevRot := true }, nextProt := ms.nextRot }
        let wma := velWma ms
        let p := if wma.lenGt EPSILON then
            { p with flags := { p.flags with setNextRot := true }, nextNrot := ext.dirQuatFromVelocity wma }
          else
            { p with flags := { p.flags with setNextRot := true }, nextNrot := ms.prevRot }
        let p := { p with
          flags := { p.flags with setRotation := true }, nextRot := ms.nextRot }
        (p, stepRes.2)
      else
        ({ p with flags := { p.flags with setVelocity := true }, nextVelocity := Vec2.zero }, newPosXZ)
    let p := moveRes.1
    let newPosXZ := moveRes.2
    if !ext.positionPathable layer newPosXZ then (s, p) else
    match ms.state with
    | .moving | .movingInFormation =>
      if inp.fid.isSome && !inp.assignmentReady then (s, p)
      else if inp.fid.isSome && inp.assignedToCell && inp.inRangeOfCell then
        (s, { p with flags := { p.flags with setState := true }, nextState := ArrivalState.arrivingToCell })
      else
      match flockForEnt s uid >>= (s.flocks[·]?) with
      | none => (s, p)
      | some fl =>
        if arrivedAt ext s uid newPosXZ then
          (s, { p with flags := { p.flags with setState := true }, nextState := ArrivalState.arrived, nextBlock := true })
        else
        let adjacent := adjacentFlockMembers s uid fl
        let done := adjacent.any (fun adj =>
          match movestateGet s adj with
          | some adjMs => adjMs.state == ArrivalState.arrived
          | none => false)
        if done then
          (s, { p with flags := { p.flags with setState := true }, nextState := ArrivalState.arrived, nextBlock := true })
        else if vdes.lenLt EPSILON then
          (s, { p with flags := { p.flags with setState := true }, nextState := ArrivalState.waiting, nextBlock := true })
        else (s, p)
    | .seekEnemies =>
      if vdes.lenLt EPSILON then
        (s, { p with flags := { p.flags with setState := true }, nextState := ArrivalState.waiting, nextBlock := true })
      else (s, p)
    | .surroundEntity =>
      if ms.surroundTargetUid == NULL_UID then
        (s, { p with flags := { p.flags with setState := true }, nextState := ArrivalState.arrived, nextBlock := true })
      else if !entityExists s ms.surroundTargetUid
              || ext.objAdjacent uid ms.surroundTargetUid then
        (s, { p with flags := { p.flags with setState := true }, nextState := ArrivalState.arrived, nextBlock := true })
      else
      let targetPos := posGetXZ s ms.surroundTargetUid
      let dest := ms.surroundNearestPrev
      let delta := targetPos.sub ms.surroundTargetPrev
      let recompute := delta.lenGt EPSILON || ms.velocity.lenLt EPSILON
      let destRes : Option Vec2 :=
        if recompute then
          ext.closestReachableAdjacentPos layer newPosXZ ms.surroundTargetUid
        else some dest
      match destRes with
      | none =>
        (s, { p with flags := { p.flags with setState := true }, nextState := ArrivalState.arrived, nextBlock := true })
      | some dest =>
        match flockForEnt s uid >>= (s.flocks[·]?) with
        | none => (s, p)
        | some fl =>
          let diff := fl.targetXZ.sub dest
          let s := setMovestate s uid
            { ms with surroundTargetPrev := targetPos, surroundNearestPrev := dest }
          if diff.lenGt EPSILON then
            (s, { p with
              flags := { p.flags with setDest := true, setState := true }, nextDest := dest, nextAttack := false,
              nextState := ArrivalState.surroundEntity })
          else if vdes.lenLt EPSILON then
            (s, { p with flags := { p.flags with setState := true }, nextState := ArrivalState.waiting, nextBlock := true })
          else (s, p)
    | .enterEntityRange =>
      if ms.surroundTargetUid == NULL_UID then
        (s, { p with flags := { p.flags with setState := true }, nextState := ArrivalState.arrived, nextBlock := true })
      else
      let xzTarget := posGetXZ s ms.surroundTargetUid
      let delta := newPosXZ.sub xzTarget
      if delta.lenLe ms.targetRange
         || (ext.isAdjacentToImpassable layer newPosXZ
             && ext.isMaximallyClose layer newPosXZ xzTarget 0) then
        (s, { p with flags := { p.flags with setState := true }, nextState := ArrivalState.waiting, nextBlock := true })
      else
      let targetDelta := xzTarget.sub ms.targetPrevPos
      if targetDelta.lenGt 5 then
        (s, { p with
          flags := { p.flags with setDest := true, setTargetPrev := true }, nextDest := xzTarget, nextAttack := false, nextTargetPrev := xzTarget })
      else (s, p)
    | .turning =>
      let entRot := rotGet s uid
      let degrees := ext.quatPitchDiffDeg entRot ms.targetDir
      if |degrees| ≤ 5 then
        (s, { p with flags := { p.flags with setState := true }, nextState := ArrivalState.arrived, nextBlock := true })
      else
      let turnDeg := min MAX_TURN_RATE |degrees| *
        (if degrees > 0 then -1 else if degrees < 0 then 1 else 0)
      let finalQ := ext.turnedQuat turnDeg entRot
      (s, { p with
        flags := { p.flags with setRotation := true, setPrevRot := true }, nextRot := finalQ, nextProt := finalQ })
    | .waiting =>
      let ms := { ms with waitTicksLeft := ms.waitTicksLeft - 1 }
      let s := setMovestate s uid ms
      if ms.waitTicksLeft == 0 then
        (s, { p with flags := { p.flags with setMoving := true }, nextState := ms.waitPrev })
      else (s, p)
    | .arrived => (s, p)
    | .arrivingToCell =>
      match inp.fid with
      | none =>
        (s, { p with flags := { p.flags with setState := true }, nextState := ArrivalState.moving })
      | some _ =>
        if !inp.assignmentReady then (s, p)
        else if !inp.inRangeOfCell then
          (s, { p with flags := { p.flags with setState := true }, nextState := ArrivalState.movingInFormation })
        else if inp.arrivedAtCell then
          (s, { p with
            flags := { p.flags with setState := true, setTargetDir := true }, nextTargetDir := inp.targetOrientQ, nextState := ArrivalState.turning })
        else (s, p)

/-- ent_update_using_surround_field: hysteresis between the low-water
and high-water bands around the surround target. -/
def entUpdateUsingSurroundField (ext : Ext) (s : CoreState) (uid : ℕ)
    (ms : Movestate) : Movestate :=
  let posXZ := posGetXZ s uid
  let targetPosXZ := posGetXZ s ms.surroundTargetUid
  let dx := |targetPosXZ.x - posXZ.x|
  let dz := |targetPosXZ.z - posXZ.z|
  if !ms.usingSurroundField then
    if dx < lowWaterX ext && dz < lowWaterZ ext then
      { ms with usingSurroundField := true }
    else ms
  else
    if dx ≥ highWaterX ext || dz ≥ highWaterZ ext then
      { ms with usingSurroundField := false }
    else ms

/-- Modify the movestate of a uid in place. -/
def modMS (s : CoreState) (uid : ℕ) (f : Movestate → Movestate) : CoreState :=
  match movestateGet s uid with
  | none => s
  | some ms => setMovestate s uid (f ms)

/-- entity_apply_update: apply a patch onto the canonical state.  The
two stacked if statements at the end of the source function parse so
that the UPDATE_SET_MOVING block is additionally guarded by the
preceding condition (UPDATE_SET_STATE with STATE_ARRIVED or
STATE_WAITING); the model reproduces that parse faithfully. -/
def entityApplyUpdate (ext : Ext) (s : CoreState) (uid : ℕ) (p : Patch) : CoreState :=
  if !ext.entityExistsG uid || ext.entityIsZombie uid then s else
  match movestateGet s uid with
  | none => s
  | some _ =>
    let s := if p.flags.setState then
        if p.nextState == ArrivalState.arrived || p.nextState == ArrivalState.waiting then
          entityFinishMoving s uid p.nextState p.nextBlock
        else modMS s uid (fun ms => { ms with state := p.nextState })
      else s
    let s := if p.flags.setVelocity then
        modMS s uid (fun ms => updateVelHist { ms with velocity := p.nextVelocity } p.nextVelocity)
      else s
    let s := if p.flags.setPosition then
        { s with positions := setA s.positions uid p.nextPos }
      else s
    let s := if p.flags.setRotation then
        { s with rotations := setA s.rotations uid p.nextRot }
      else s
    let s := if p.flags.setPrevPos then
        modMS s uid (fun ms => { ms with prevPos := p.nextPpos })
      else s
    let s := if p.flags.setNextPos then
        modMS s uid (fun ms => { ms with nextPos := p.nextNpos })
      else s
    let s := if p.flags.setStep then
        modMS s uid (fun ms => { ms with step := p.nextStep })
      else s
    let s := if p.flags.setLeft then
        modMS s uid (fun ms => { ms with left := ratTruncToInt p.nextLeft })
      else s
    let s := if p.flags.setPrevRot then
        modMS s uid (fun ms => { ms with prevRot := p.nextProt })
      else s
    let s := if p.flags.setNextRot then
        modMS s uid (fun ms => { ms with nextRot := p.nextNrot })
      else s
    let s := if p.flags.setTargetPrev then
        modMS s uid (fun ms => { ms with targetPrevPos := p.nextTargetPrev })
      else s
    let s := if p.flags.setTargetDir then
        modMS s uid (fun ms => { ms with targetDir := p.nextTargetDir })
      else s
    let s := if p.flags.setState
                && (p.nextState == ArrivalState.arrived
                    || p.nextState == ArrivalState.waiting) then
        if p.flags.setMoving then
          let s := entityUnblock s uid
          let s := { s with events := s.events ++ [.motionStart uid] }
          modMS s uid (fun ms => { ms with state := p.nextState })
        else s
      else s
    match movestateGet s uid with
    | some ms =>
      if ms.state == ArrivalState.surroundEntity then
        setMovestate s uid (entUpdateUsingSurroundField ext s uid ms)
      else s
    | none => s

/-- Typed attribute written to or parsed from the savefile stream
(struct attr restricted to the types the movement serializer uses).
Attr_Write emits one byte-level record per attribute, injectively, so
byte-identical output is the same thing as attribute-list-identical
output. -/
inductive Attr where
  | aBool (b : Bool)
  | aInt (i : ℤ)
  | aFloat (q : ℚ)
  | aVec2 (v : Vec2)
  | aVec3 (v : Vec3)
  | aQuat (q : Quat)
  deriving DecidableEq, Repr

/-- Per-agent record of G_Move_SaveState, in source order.  The fields
last_stop_pos and last_stop_radius are deliberately not written (source
comment: they are reconstructed from the entity position on load). -/
def saveMovestate (ms : Movestate) : List Attr :=
  [.aInt ms.state.toInt, .aFloat ms.maxSpeed, .aVec2 ms.velocity,
   .aVec3 ms.nextPos, .aVec3 ms.prevPos, .aQuat ms.nextRot, .aQuat ms.prevRot,
   .aFloat ms.step, .aInt ms.left, .aBool ms.blocking,
   .aInt ms.waitPrev.toInt, .aInt ms.waitTicksLeft]
  ++ ms.velHist.map Attr.aVec2
  ++ [.aInt ms.velHistIdx, .aInt (ms.surroundTargetUid : ℤ),
      .aVec2 ms.surroundTargetPrev, .aVec2 ms.surroundNearestPrev,
      .aBool ms.usingSurroundField, .aVec2 ms.targetPrevPos,
      .aFloat ms.targetRange, .aQuat ms.targetDir]

/-- Per-flock record of G_Move_SaveState. -/
def saveFlock (f : Flock) : List Attr :=
  .aInt (f.ents.length : ℤ)
    :: (f.ents.map (fun u => Attr.aInt (u : ℤ))
        ++ [.aVec2 f.targetXZ, .aInt (f.destId : ℤ)])

/-- Concatenated per-agent records of the state table. -/
def saveEntsTable (tbl : List (ℕ × Movestate)) : List Attr :=
  tbl.foldr (fun e acc => Attr.aInt (e.1 : ℤ) :: saveMovestate e.2 ++ acc) []

/-- G_Move_SaveState: click_move_enabled, flock count, flock records,
agent count, agent records. -/
def saveState (s : CoreState) : List Attr :=
  Attr.aBool s.clickMoveEnabled
    :: Attr.aInt (s.flocks.length : ℤ)
    :: (s.flocks.foldr (fun f acc => saveFlock f ++ acc) []
        ++ Attr.aInt (s.stateTable.length : ℤ)
        :: saveEntsTable s.stateTable)

/-- Flock-member loop of G_Move_LoadState: parse n uids and add each
to the flock. -/
def loadFlockEnts : ℕ → List Attr → Flock → Option (Flock × List Attr)
  | 0, stream, f => some (f, stream)
  | n + 1, .aInt u :: stream, f => loadFlockEnts n stream (flockAdd f u.toNat)
  | _ + 1, _, _ => none

/-- Flock loop of G_Move_LoadState: parse n flock records, pushing each
onto s_flocks.  On a malformed stream the source returns false having
already pushed the flocks parsed so far; the model collapses every
failure to none, which no claim observes. -/
def loadFlocks : ℕ → List Attr → CoreState → Option (CoreState × List Attr)
  | 0, stream, s => some (s, stream)
  | n + 1, .aInt nents :: stream, s =>
    match loadFlockEnts nents.toNat stream { ents := [], targetXZ := Vec2.zero, destId := 0 } with
    | none => none
    | some (f, stream) =>
      match stream with
      | .aVec2 target :: .aInt destId :: stream =>
        loadFlocks n stream { s with flocks := s.flocks ++ [{ f with targetXZ := target, destId := destId.toNat }] }
      | _ => none
  | _ + 1, _, _ => none

/-- Velocity-history loop of the per-agent loader. -/
def parseVelHist : ℕ → List Attr → Option (List Vec2 × List Attr)
  | 0, stream => some ([], stream)
  | n + 1, .aVec2 v :: stream =>
    match parseVelHist n stream with
    | none => none
    | some (vs, stream) => some (v :: vs, stream)
  | _ + 1, _ => none

/-- Per-agent record loader of G_Move_LoadState: the uid must already
have a movestate (re-created by the flushed Add commands); every
serialized field is overwritten in source order, and when the saved
blocking flag is false the (blocking) freshly added entity is
unblocked.  last_stop_pos and last_stop_radius are left as the Add
command set them. -/
def loadEnt (s : CoreState) : List Attr → Option (CoreState × List Attr)
  | .aInt uid0 :: .aInt st :: .aFloat msp :: .aVec2 vel :: .aVec3 npos :: .aVec3 ppos ::
      .aQuat nrot :: .aQuat prot :: .aFloat stp :: .aInt lft :: .aBool blk ::
      .aInt wprev :: .aInt wleft :: stream =>
    let uid := uid0.toNat
    match movestateGet s uid with
    | none => none
    | some _ =>
      let s := modMS s uid (fun ms => { ms with
        state := ArrivalState.ofInt st, maxSpeed := msp, velocity := vel,
        nextPos := npos, prevPos := ppos, nextRot := nrot, prevRot := prot,
        step := stp, left := lft })
      let s := if !blk then entityUnblock s uid else s
      let s := modMS s uid (fun ms => { ms with
        waitPrev := ArrivalState.ofInt wprev, waitTicksLeft := wleft })
      match parseVelHist VEL_HIST_LEN stream with
      | none => none
      | some (hist, stream) =>
        match stream with
        | .aInt vhIdx :: .aInt stu :: .aVec2 stPrev :: .aVec2 snPrev :: .aBool usf ::
            .aVec2 tpp :: .aFloat trange :: .aQuat tdir :: stream =>
          let s := modMS s uid (fun ms => { ms with
            velHist := hist, velHistIdx := vhIdx, surroundTargetUid := stu.toNat,
            surroundTargetPrev := stPrev, surroundNearestPrev := snPrev,
            usingSurroundField := usf, targetPrevPos := tpp,
            targetRange := trange, targetDir := tdir })
          some (s, stream)
        | _ => none
  | _ => none

/-- Agent loop of G_Move_LoadState. -/
def loadEnts : ℕ → List Attr → CoreState → Option (CoreState × List Attr)
  | 0, stream, s => some (s, stream)
  | n + 1, stream, s =>
    match loadEnt s stream with
    | none => none
    | some (s, stream) => loadEnts n stream s

/-- G_Move_LoadState, applied to the state reached after the pending
commands were drained (the source calls move_process_cmds first; the
re-created agents are blocking and the flock vector is empty, which the
round-trip theorem takes as hypotheses). -/
def loadState (stream : List Attr) (s : CoreState) : Option CoreState :=
  match stream with
  | .aBool cme :: .aInt nflocks :: stream =>
    let s := { s with clickMoveEnabled := cme }
    match loadFlocks nflocks.toNat stream s with
    | none => none
    | some (s, stream) =>
      match stream with
      | .aInt nents :: stream =>
        match loadEnts nents.toNat stream s with
        | none => none
        | some (s, _) => some s
      | _ => none
  | _ => none

/-- enum formation_type of formation.c (FORMATION_RANK,
FORMATION_COLUMN). -/
inductive FormationType where
  | rank
  | column
  deriving DecidableEq, Repr

/-- RANK_WIDTH_RATIO = 0.25f, formation.c. -/
def rankWidthRatioQ : ℚ := 1 / 4

/-- COLUMN_WIDTH_RATIO = 4.0f, formation.c. -/
def columnWidthRatioQ : ℚ := 4

/-- Upward search for the least k at or above the start value whose
square reaches m. -/
def ceilSqrtAux (m : ℕ) : ℕ → ℕ → ℕ
  | k, 0 => k
  | k, fuel + 1 => if m ≤ k * k then k else ceilSqrtAux m (k + 1) fuel

/-- Ceiling square root on naturals: the least k with m <= k * k
(see ceilSqrtNat_spec). -/
def ceilSqrtNat (m : ℕ) : ℕ := ceilSqrtAux m 0 (m + 1)

/-- Ceiling square root of a non-negative rational: the least natural k
with k^2 >= x.  This is the exact-real value of ceilf(sqrtf(x)); at the
magnitudes the formation planner feeds in, the float computation is
exact. -/
def ceilSqrtQ (x : ℚ) : ℕ := ceilSqrtNat ⌈x⌉.toNat

/-- ncols, formation.c: MIN(ceilf(sqrtf(nunits / RATIO)), nunits)
with RATIO 0.25 for Rank and 4.0 for Column. -/
def ncols (type : FormationType) (nunits : ℕ) : ℕ :=
  match type with
  | .rank => min (ceilSqrtQ ((nunits : ℚ) / rankWidthRatioQ)) nunits
  | .column => min (ceilSqrtQ ((nunits : ℚ) / columnWidthRatioQ)) nunits

/-- nrows, the file-scope helper of formation.c:
ceilf(nunits / ncols(type, nunits)).  The division is a size_t
division, so its quotient is already an integer and the ceilf is the
identity: the helper computes the floor, not the ceiling.  (It is
shadowed by a local variable in init_subformation and never called.) -/
def nrowsHelper (type : FormationType) (nunits : ℕ) : ℕ :=
  nunits / ncols type nunits

/-- Row count of the cell grid as computed inside init_subformation:
nrows = (nents / ncols) + !!(nents % ncols), the exact ceiling
division. -/
def initSubformationNrows (nents ncols0 : ℕ) : ℕ :=
  nents / ncols0 + (if nents % ncols0 = 0 then 0 else 1)

/-- Column-count formula exactly as the spec words it (section 4.6
step 5): ncols = the ceiling of the square root of n divided by the
ratio, with no cap.  Kept separate from the source definition so the
two can be compared. -/
def ncolsSpecFormula (type : FormationType) (nunits : ℕ) : ℕ :=
  match type with
  | .rank => ceilSqrtQ ((nunits : ℚ) / rankWidthRatioQ)
  | .column => ceilSqrtQ ((nunits : ℚ) / columnWidthRatioQ)

theorem lookupA_eq_none {α : Type} (l : List (ℕ × α)) (k : ℕ)
    (h : ∀ p ∈ l, p.1 ≠ k) : lookupA l k = none := by
  induction l with
  | nil => rfl
  | cons p rest ih =>
    have hp := h p (List.mem_cons_self p rest)
    simp only [lookupA, List.find?] at *
    have : (p.1 == k) = false := by simpa using hp
    rw [this]
    exact ih (fun q hq => h q (List.mem_cons_of_mem p hq))

theorem setA_cons {α : Type} (p : ℕ × α) (rest : List (ℕ × α)) (k : ℕ) (v : α) :
    setA (p :: rest) k v = (if p.1 == k then (k, v) else p) :: setA rest k v := rfl

theorem lookupA_cons_pos {α : Type} (p : ℕ × α) (rest : List (ℕ × α)) (k : ℕ)
    (h : (p.1 == k) = true) : lookupA (p :: rest) k = some p.2 := by
  simp only [lookupA, List.find?_cons, h, Option.map_some']

theorem lookupA_cons_neg {α : Type} (p : ℕ × α) (rest : List (ℕ × α)) (k : ℕ)
    (h : (p.1 == k) = false) : lookupA (p :: rest) k = lookupA rest k := by
  simp only [lookupA, List.find?_cons, h]

theorem lookupA_setA {α : Type} (l : List (ℕ × α)) (k : ℕ) (v : α) :
    lookupA (setA l k v) k = (lookupA l k).map (fun _ => v) := by
  induction l with
  | nil => rfl
  | cons p rest ih =>
    rw [setA_cons]
    cases hb : (p.1 == k)
    · rw [if_neg (by simp), lookupA_cons_neg _ _ _ hb, lookupA_cons_neg _ _ _ hb]
      exact ih
    · rw [if_pos rfl, lookupA_cons_pos _ _ _ (by simp), lookupA_cons_pos _ _ _ hb]
      rfl

theorem lookupA_setA_ne {α : Type} (l : List (ℕ × α)) (k k' : ℕ) (v : α)
    (h : k' ≠ k) : lookupA (setA l k v) k' = lookupA l k' := by
  induction l with
  | nil => rfl
  | cons p rest ih =>
    rw [setA_cons]
    cases hb : (p.1 == k)
    · rw [if_neg (by simp)]
      cases hb2 : (p.1 == k')
      · rw [lookupA_cons_neg _ _ _ hb2, lookupA_cons_neg _ _ _ hb2]
        exact ih
      · rw [lookupA_cons_pos _ _ _ hb2, lookupA_cons_pos _ _ _ hb2]
    · rw [if_pos rfl]
      have hp : p.1 = k := by simpa using hb
      have hb2 : (p.1 == k') = false := by
        simp only [beq_eq_false_iff_ne, ne_eq, hp]
        exact fun hc => h hc.symm
      have hkk : ((k, v).1 == k') = false := by
        simpa [hp] using hb2
      rw [lookupA_cons_neg _ _ _ hkk, lookupA_cons_neg _ _ _ hb2]
      exact ih

theorem setA_setA {α : Type} (l : List (ℕ × α)) (k : ℕ) (v w : α) :
    setA (setA l k v) k w = setA l k w := by
  simp only [setA, List.map_map]
  congr 1
  funext p
  by_cases h : p.1 = k <;> simp [h]

theorem setA_map_fst {α : Type} (l : List (ℕ × α)) (k : ℕ) (v : α) :
    (setA l k v).map Prod.fst = l.map Prod.fst := by
  simp only [setA, List.map_map]
  apply List.map_congr_left
  intro p _
  by_cases h : p.1 = k <;> simp [h]

theorem lookupA_isSome_of_some {α : Type} {l : List (ℕ × α)} {k : ℕ} {v : α}
    (h : lookupA l k = some v) : (lookupA l k).isSome := by simp [h]

theorem lookupA_mem {α : Type} {l : List (ℕ × α)} {k : ℕ} {v : α}
    (h : lookupA l k = some v) : (k, v) ∈ l := by
  induction l with
  | nil => simp [lookupA] at h
  | cons p rest ih =>
    by_cases hp : p.1 = k
    · simp only [lookupA, List.find?, show (p.1 == k) = true by simpa using hp] at h
      have hpv : p = (k, v) := by
        cases p
        simp_all
      rw [hpv]
      exact List.mem_cons_self _ _
    · simp only [lookupA, List.find?, show (p.1 == k) = false by simpa using hp] at h
      exact List.mem_cons_of_mem p (ih h)

theorem lookupA_isSome_iff_mem {α : Type} (l : List (ℕ × α)) (k : ℕ) :
    (lookupA l k).isSome ↔ k ∈ l.map Prod.fst := by
  induction l with
  | nil => simp [lookupA]
  | cons p rest ih =>
    by_cases hp : p.1 = k
    · simp [lookupA, List.find?, show (p.1 == k) = true by simpa using hp, hp.symm]
    · simp only [lookupA, List.find?, show (p.1 == k) = false by simpa using hp,
        List.map_cons, List.mem_cons]
      rw [lookupA] at ih
      simpa [Ne.symm hp] using ih

/-- C4 claim, formalized: across one run of
ent_update_using_surround_field, the flag turns on only inside the
low-water band on both axes, turns off only at or beyond the high-water
threshold on either axis, and cannot change at all while both offsets
are strictly between the thresholds; no other movestate field is
touched. -/
theorem c4_surround_hysteresis (ext : Ext) (s : CoreState) (uid : ℕ) (ms : Movestate) :
    ((entUpdateUsingSurroundField ext s uid ms).usingSurroundField = true →
      ms.usingSurroundField = false →
      |(posGetXZ s ms.surroundTargetUid).x - (posGetXZ s uid).x| < lowWaterX ext ∧
      |(posGetXZ s ms.surroundTargetUid).z - (posGetXZ s uid).z| < lowWaterZ ext) ∧
    ((entUpdateUsingSurroundField ext s uid ms).usingSurroundField = false →
      ms.usingSurroundField = true →
      |(posGetXZ s ms.surroundTargetUid).x - (posGetXZ s uid).x| ≥ highWaterX ext ∨
      |(posGetXZ s ms.surroundTargetUid).z - (posGetXZ s uid).z| ≥ highWaterZ ext) ∧
    (lowWaterX ext ≤ |(posGetXZ s ms.surroundTargetUid).x - (posGetXZ s uid).x| →
      |(posGetXZ s ms.surroundTargetUid).x - (posGetXZ s uid).x| < highWaterX ext →
      lowWaterZ ext ≤ |(posGetXZ s ms.surroundTargetUid).z - (posGetXZ s uid).z| →
      |(posGetXZ s ms.surroundTargetUid).z - (posGetXZ s uid).z| < highWaterZ ext →
      entUpdateUsingSurroundField ext s uid ms = ms) ∧
    ((entUpdateUsingSurroundField ext s uid ms) =
        { ms with usingSurroundField := (entUpdateUsingSurroundField ext s uid ms).usingSurroundField }) := by
  unfold entUpdateUsingSurroundField
  dsimp only
  split_ifs with h1 h2 h3
  · have hu : ms.usingSurroundField = false := by simpa using h1
    rw [Bool.and_eq_true, decide_eq_true_eq, decide_eq_true_eq] at h2
    refine ⟨fun _ _ => h2, ?_, ?_, rfl⟩
    · intro habs _
      simp at habs
    · intro hge _ _ _
      exact absurd h2.1 (not_lt.mpr hge)
  · have hu : ms.usingSurroundField = false := by simpa using h1
    refine ⟨?_, ?_, fun _ _ _ _ => rfl, ?_⟩
    · intro habs _
      exact absurd habs (by simp [hu])
    · intro _ habs
      exact absurd habs (by simp [hu])
    · show ms = { ms with usingSurroundField := ms.usingSurroundField }
      rfl
  · have hu : ms.usingSurroundField = true := by simpa using h1
    rw [Bool.or_eq_true, decide_eq_true_eq, decide_eq_true_eq] at h3
    refine ⟨?_, fun _ _ => h3, ?_, rfl⟩
    · intro habs _
      simp at habs
    · intro _ hlt _ hlt2
      rcases h3 with h3 | h3
      · exact absurd h3 (not_le.mpr hlt)
      · exact absurd h3 (not_le.mpr hlt2)
  · have hu : ms.usingSurroundField = true := by simpa using h1
    refine ⟨?_, ?_, fun _ _ _ _ => rfl, ?_⟩
    · intro _ habs
      exact absurd habs (by simp [hu])
    · intro habs _
      exact absurd habs (by simp [hu])
    · show ms = { ms with usingSurroundField := ms.usingSurroundField }
      rfl

/-- Oracle instantiation used by the hysteresis witness: chunk
dimensions 12, so the low-water thresholds are 4 and the high-water
thresholds are 6. -/
def c4WitnessExt : Ext := { Ext.trivial with chunkWidth := 12, chunkHeight := 12 }

/-- State for the hysteresis witness: agent 1 at the origin, its
surround target (uid 2) at offset (5, 5), strictly between the
thresholds. -/
def c4WitnessState : CoreState := {
  flocks := [], stateTable := [], clickMoveEnabled := true,
  positions := [(1, ⟨0, 0, 0⟩), (2, ⟨5, 0, 5⟩)],
  selRadiuses := [], factionIds := [], flagsTable := [], rotations := [],
  blockerOps := [], events := [] }

/-- Movestate for the hysteresis witness: currently using the surround
field. -/
def c4WitnessMs : Movestate := {
  state := ArrivalState.surroundEntity, maxSpeed := 10, velocity := Vec2.zero,
  nextPos := Vec3.zero, prevPos := Vec3.zero, nextRot := Quat.zero,
  prevRot := Quat.zero, step := 0, left := 0, blocking := false,
  lastStopPos := Vec2.zero, lastStopRadius := 0,
  waitPrev := ArrivalState.moving, waitTicksLeft := 0,
  velHist := List.replicate VEL_HIST_LEN Vec2.zero, velHistIdx := 0,
  surroundTargetUid := 2, surroundTargetPrev := Vec2.zero,
  surroundNearestPrev := Vec2.zero, usingSurroundField := true,
  targetPrevPos := Vec2.zero, targetRange := 0, targetDir := Quat.zero }

/-- C4 witness: with both offsets strictly between the low-water and
high-water thresholds, the update leaves the movestate untouched. -/
theorem c4_surround_hysteresis_witness :
    entUpdateUsingSurroundField c4WitnessExt c4WitnessState 1 c4WitnessMs = c4WitnessMs :=
  (c4_surround_hysteresis c4WitnessExt c4WitnessState 1 c4WitnessMs).2.2.1
    (by decide) (by decide) (by decide) (by decide)

theorem ceilSqrtAux_spec (m : ℕ) : ∀ fuel k,
    (∀ j, j < k → j * j < m) → m ≤ (k + fuel) * (k + fuel) →
    m ≤ ceilSqrtAux m k fuel * ceilSqrtAux m k fuel ∧
      ∀ j, j < ceilSqrtAux m k fuel → j * j < m
  | 0, k, hinv, hub => ⟨by simpa [ceilSqrtAux] using hub, by simpa [ceilSqrtAux] using hinv⟩
  | fuel + 1, k, hinv, hub => by
    unfold ceilSqrtAux
    split_ifs with h
    · exact ⟨h, hinv⟩
    · apply ceilSqrtAux_spec m fuel (k + 1)
      · intro j hj
        rcases Nat.lt_or_ge j k with hjk | hjk
        · exact hinv j hjk
        · have : j = k := by omega
          subst this
          omega
      · have : k + 1 + fuel = k + (fuel + 1) := by omega
        rw [this]
        exact hub

/-- ceilSqrtNat computes the ceiling of the square root: its square
reaches m and it is the least natural to do so. -/
theorem ceilSqrtNat_spec (m : ℕ) :
    m ≤ ceilSqrtNat m * ceilSqrtNat m ∧ ∀ j, j < ceilSqrtNat m → j * j < m := by
  apply ceilSqrtAux_spec m (m + 1) 0
  · intro j hj
    omega
  · nlinarith

theorem ceilSqrtNat_pos {m : ℕ} (hm : 0 < m) : 0 < ceilSqrtNat m := by
  rcases Nat.eq_zero_or_pos (ceilSqrtNat m) with h | h
  · have := (ceilSqrtNat_spec m).1
    rw [h] at this
    omega
  · exact h

theorem ceilSqrtQ_pos {x : ℚ} (hx : 0 < x) : 0 < ceilSqrtQ x := by
  unfold ceilSqrtQ
  apply ceilSqrtNat_pos
  have hc : (0 : ℤ) < ⌈x⌉ := Int.ceil_pos.mpr hx
  omega

theorem ncols_pos (t : FormationType) {n : ℕ} (hn : 0 < n) : 0 < ncols t n := by
  have hq : (0 : ℚ) < (n : ℚ) := by exact_mod_cast hn
  cases t
  · exact lt_min (ceilSqrtQ_pos (by rw [rankWidthRatioQ]; positivity)) hn
  · exact lt_min (ceilSqrtQ_pos (by rw [columnWidthRatioQ]; positivity)) hn

/-- Ceiling division on naturals, written the way init_subformation
writes it, coincides with the rational ceiling of the quotient. -/
theorem initSubformationNrows_eq_ceil (a b : ℕ) (hb : 0 < b) :
    ((initSubformationNrows a b : ℕ) : ℤ) = ⌈(a : ℚ) / (b : ℚ)⌉ := by
  have hbq : (0 : ℚ) < (b : ℚ) := by exact_mod_cast hb
  have hab : b * (a / b) + a % b = a := Nat.div_add_mod a b
  have hrb : a % b < b := Nat.mod_lt a hb
  unfold initSubformationNrows
  rcases Nat.eq_zero_or_pos (a % b) with h0 | h0
  · have hmul : b * (a / b) = a := by omega
    have haq : (a : ℚ) = (b : ℚ) * ((a / b : ℕ) : ℚ) := by exact_mod_cast hmul.symm
    rw [h0, if_pos rfl, haq, mul_div_cancel_left₀ _ (ne_of_gt hbq)]
    simp
  · rw [if_neg (by omega)]
    symm
    rw [Int.ceil_eq_iff]
    have hlt : (a / b) * b < a := by
      have hcomm : (a / b) * b = b * (a / b) := Nat.mul_comm _ _
      omega
    have hle : a ≤ (a / b + 1) * b := by
      have hexp : (a / b + 1) * b = b * (a / b) + b := by ring
      omega
    have h1 : ((a / b : ℕ) : ℚ) * (b : ℚ) < (a : ℚ) := by exact_mod_cast hlt
    have h2 : (a : ℚ) ≤ (((a / b : ℕ) : ℚ) + 1) * (b : ℚ) := by
      have hc : (((a / b + 1) * b : ℕ) : ℚ) = (((a / b : ℕ) : ℚ) + 1) * (b : ℚ) := by
        rw [Nat.cast_mul, Nat.cast_add, Nat.cast_one]
      calc (a : ℚ) ≤ (((a / b + 1) * b : ℕ) : ℚ) := by exact_mod_cast hle
        _ = _ := hc
    have hq1 : ((a / b : ℕ) : ℚ) < (a : ℚ) / (b : ℚ) := (lt_div_iff hbq).mpr h1
    have hq2 : (a : ℚ) / (b : ℚ) ≤ ((a / b : ℕ) : ℚ) + 1 := (div_le_iff hbq).mpr h2
    constructor
    · rw [Int.cast_natCast, Nat.cast_add, Nat.cast_one]
      linarith
    · rw [Int.cast_natCast, Nat.cast_add, Nat.cast_one]
      linarith

/-- C7 counterexample: for a Rank subformation of 2 units the code
computes 2 columns (the cap at nunits), while the formula of the claim
gives the ceiling of the square root of 2/0.25, which is 3. -/
theorem c7_counterexample :
    ncols FormationType.rank 2 = 2 ∧ ncolsSpecFormula FormationType.rank 2 = 3 ∧
    ncols FormationType.rank 2 ≠ ncolsSpecFormula FormationType.rank 2 := by
  refine ⟨?_, ?_, ?_⟩ <;> decide

/-- C7 amended: the column count is the ceiling-square-root formula of
the spec capped at the unit count; the row count of the cell grid (the
one init_subformation stores) is the exact ceiling of n over ncols; the
file-scope nrows helper instead computes the floor; and a Rank
subformation of 25 units gets a 10-column, 3-row grid. -/
theorem c7_amended (t : FormationType) (n : ℕ) (hn : 0 < n) :
    ncols t n = min (ncolsSpecFormula t n) n ∧
    ((initSubformationNrows n (ncols t n) : ℕ) : ℤ) = ⌈(n : ℚ) / ((ncols t n : ℕ) : ℚ)⌉ ∧
    nrowsHelper t n = n / ncols t n ∧
    (t = FormationType.rank → n = 25 →
      ncols t n = 10 ∧ initSubformationNrows n (ncols t n) = 3) := by
  refine ⟨?_, ?_, rfl, ?_⟩
  · cases t <;> rfl
  · exact initSubformationNrows_eq_ceil n (ncols t n) (ncols_pos t hn)
  · intro ht hn25
    subst ht
    subst hn25
    exact ⟨by decide, by decide⟩

/-- C7 witness: the amended statement applied to the Rank subformation
of 25 units named by the claim. -/
theorem c7_amended_witness :
    ncols FormationType.rank 25 = 10 ∧
    initSubformationNrows 25 (ncols FormationType.rank 25) = 3 :=
  (c7_amended FormationType.rank 25 (by decide)).2.2.2 rfl rfl

theorem setA_not_mem {α : Type} {l : List (ℕ × α)} {k : ℕ} {v : α}
    (h : k ∉ l.map Prod.fst) : setA l k v = l := by
  induction l with
  | nil => rfl
  | cons p rest ih =>
    rw [setA_cons]
    have hp : p.1 ≠ k := by
      intro hc
      exact h (by simp [← hc])
    rw [if_neg (by simpa using hp)]
    rw [ih (fun hc => h (List.mem_cons_of_mem _ hc))]

theorem setA_lookup_self {α : Type} {l : List (ℕ × α)} {k : ℕ} {v : α}
    (h : lookupA l k = some v) (hnodup : (l.map Prod.fst).Nodup) :
    setA l k v = l := by
  induction l with
  | nil => rfl
  | cons p rest ih =>
    rw [setA_cons]
    cases hb : (p.1 == k)
    · rw [if_neg (by simp)]
      rw [lookupA_cons_neg _ _ _ hb] at h
      rw [ih h (by simpa using (List.nodup_cons.mp (by simpa using hnodup)).2)]
    · have hp : p.1 = k := by simpa using hb
      rw [lookupA_cons_pos _ _ _ hb] at h
      have hnd : (p.1 :: rest.map Prod.fst).Nodup := by simpa using hnodup
      have hmem : k ∉ rest.map Prod.fst := hp ▸ (List.nodup_cons.mp hnd).1
      rw [if_pos rfl, setA_not_mem hmem]
      have : p = (k, v) := by
        cases p
        simp_all
      rw [this]

/-- Destination id computed at the top of do_set_dest for a SetDest
command (the prefix of the handler shared by all of its branches). -/
def computedDestId (ext : Ext) (s : CoreState) (uid : ℕ) (destXZ : Vec2)
    (attack : Bool) : ℕ :=
  let radius := selRadiusGet s uid
  let flags := flagsGet s uid
  let layer := ext.navLayerWithRadius flags radius
  let pos := posGetXZ s uid
  let destXZ := ext.closestReachableDest layer pos destXZ
  if attack then ext.destIdForPosAttacking destXZ layer (factionIdGet s uid)
  else ext.destIdForPos destXZ layer

/-- C5: a SetDest processed for an agent that is already Moving inside
the flock whose destination id matches the one computed for the
command leaves the entire movement state untouched (the handler only
re-asserts STATE_MOVING, which the agent already has): velocity,
velocity history, position and flock membership are unchanged. -/
theorem c5_set_dest_same_dest_noop (ext : Ext) (s : CoreState) (uid : ℕ)
    (destXZ : Vec2) (attack : Bool) (ms : Movestate) (i : ℕ)
    (hms : movestateGet s uid = some ms)
    (hmov : ms.state = ArrivalState.moving)
    (hfl : flockForDest s (computedDestId ext s uid destXZ attack) = some i)
    (hent : flockForEnt s uid = some i)
    (hnodup : (s.stateTable.map Prod.fst).Nodup) :
    doSetDest ext s uid destXZ attack = some s := by
  have hstill : entStill ms = false := by simp [entStill, hmov]
  have heta : { ms with state := ArrivalState.moving } = ms := by rw [← hmov]
  dsimp only [computedDestId] at hfl
  unfold doSetDest
  dsimp only
  rw [hfl]
  dsimp only
  rw [hent]
  simp only [beq_self_eq_true, if_true, hms, hstill, Bool.false_eq_true, if_false, heta]
  unfold setMovestate
  rw [setA_lookup_self hms hnodup]

/-- Concrete state for the C5 witness: agent 7 moving in the single
flock, whose destination id 0 is what the trivial oracle computes for
any position. -/
def c5WitnessMs : Movestate := { c4WitnessMs with
  state := ArrivalState.moving, surroundTargetUid := 0, usingSurroundField := false }

def c5WitnessState : CoreState := {
  flocks := [{ ents := [7], targetXZ := ⟨1, 2⟩, destId := 0 }],
  stateTable := [(7, c5WitnessMs)], clickMoveEnabled := true,
  positions := [(7, ⟨0, 0, 0⟩)], selRadiuses := [(7, 1)], factionIds := [(7, 0)],
  flagsTable := [(7, EntFlags.none)], rotations := [], blockerOps := [], events := [] }

/-- C5 witness: the no-op theorem applied to the concrete moving agent. -/
theorem c5_set_dest_same_dest_noop_witness :
    doSetDest Ext.trivial c5WitnessState 7 ⟨1, 2⟩ false = some c5WitnessState :=
  c5_set_dest_same_dest_noop Ext.trivial c5WitnessState 7 ⟨1, 2⟩ false c5WitnessMs 0
    (by decide) (by decide) (by decide) (by decide) (by decide)

/-- C9 amended: every listed command handler that looks up an unknown
uid (no movestate entry) returns without modifying any movement-core
state: Stop, ChangeDirection, SetEnterRange, SetSurroundEntity,
SetSeekEnemies, UpdatePos, UpdateFactionID, UpdateSelectionRadius,
SetMaxSpeed, Unblock, Block, and Remove.  (SetDest is excluded: see the
counterexample.) -/
theorem c9_amended (ext : Ext) (s : CoreState) (uid target : ℕ) (q : Quat)
    (r speed : ℚ) (xz : Vec2) (pos3 : Vec3) (oldfac newfac : ℤ)
    (hnone : movestateGet s uid = none) :
    doStop s uid = s ∧
    doSetChangeDirection s uid q = s ∧
    doSetEnterRange ext s uid target r = some s ∧
    doSetSurroundEntity ext s uid target = some s ∧
    doSetSeekEnemies s uid = s ∧
    doUpdatePos ext s uid xz = s ∧
    doUpdateFactionId s uid oldfac newfac = s ∧
    doUpdateSelectionRadius s uid r = s ∧
    doSetMaxSpeed s uid speed = s ∧
    processUnblockCmd s uid = s ∧
    processBlockCmd s uid pos3 = s ∧
    doRemoveEntity s uid = s := by
  refine ⟨?_, ?_, ?_, ?_, ?_, ?_, ?_, ?_, ?_, ?_, ?_, ?_⟩ <;>
    simp only [doStop, doSetChangeDirection, doSetEnterRange, doSetSurroundEntity,
      doSetSeekEnemies, doUpdatePos, doUpdateFactionId, doUpdateSelectionRadius,
      doSetMaxSpeed, processUnblockCmd, processBlockCmd, doRemoveEntity, hnone]

/-- State for the C9 results: one flock with destination id 0 (the id
the trivial oracle computes for every position) containing agent 3;
uid 99 has no movestate. -/
def c9State : CoreState := {
  flocks := [{ ents := [3], targetXZ := ⟨0, 0⟩, destId := 0 }],
  stateTable := [(3, c5WitnessMs)], clickMoveEnabled := true,
  positions := [(3, ⟨0, 0, 0⟩)], selRadiuses := [(3, 1)], factionIds := [(3, 0)],
  flagsTable := [(3, EntFlags.none)], rotations := [], blockerOps := [], events := [] }

/-- C9 counterexample: a SetDest naming a uid with no movestate is not
dropped silently when a flock for the computed destination id already
exists: do_set_dest adds the unknown uid to that flock and then
dereferences the null movestate pointer (modelled by the none result),
instead of returning with the state unchanged. -/
theorem c9_counterexample :
    movestateGet c9State 99 = none ∧
    doSetDest Ext.trivial c9State 99 Vec2.zero false = none ∧
    doSetDest Ext.trivial c9State 99 Vec2.zero false ≠ some c9State := by
  refine ⟨by decide, by decide, by decide⟩

/-- C9 witness: the amended no-op conjunction applied to the unknown
uid 99 of the concrete state. -/
theorem c9_amended_witness : doStop c9State 99 = c9State ∧ doSetMaxSpeed c9State 99 5 = c9State :=
  ⟨(c9_amended Ext.trivial c9State 99 3 Quat.zero 1 5 Vec2.zero Vec3.zero 0 1 (by decide)).1,
   (c9_amended Ext.trivial c9State 99 3 Quat.zero 1 5 Vec2.zero Vec3.zero 0 1 (by decide)).2.2.2.2.2.2.2.2.1⟩

theorem processBlockCmd_not_blocking (s : CoreState) (uid : ℕ) (pos3 : Vec3)
    (ms : Movestate) (p0 : Vec3) (hms : movestateGet s uid = some ms)
    (hnb : ms.blocking = false) (hpos : lookupA s.positions uid = some p0) :
    processBlockCmd s uid pos3 = { s with
      positions := setA s.positions uid pos3,
      stateTable := setA s.stateTable uid { ms with blocking := true, lastStopPos := ⟨pos3.x, pos3.z⟩, lastStopRadius := selRadiusGet s uid },
      blockerOps := s.blockerOps ++
        [⟨true, ⟨pos3.x, pos3.z⟩, selRadiusGet s uid, factionIdGet s uid⟩],
      events := s.events ++ [.entityBlocked uid (selRadiusGet s uid) ⟨pos3.x, pos3.z⟩] } := by
  have hms' : lookupA s.stateTable uid = some ms := hms
  simp only [processBlockCmd, hms, hnb, Bool.not_false, if_true, doBlock, entityBlock,
    posGetXZ, selRadiusGet, factionIdGet, movestateGet, setMovestate, lookupA_setA, hpos,
    hms', Option.map_some, Option.map_some', Option.getD_some]

theorem processUnblockCmd_blocking (s : CoreState) (uid : ℕ) (ms : Movestate)
    (hms : movestateGet s uid = some ms) (hb : ms.blocking = true) :
    processUnblockCmd s uid = { s with
      stateTable := setA s.stateTable uid { ms with blocking := false },
      blockerOps := s.blockerOps ++
        [⟨false, ms.lastStopPos, ms.lastStopRadius, factionIdGet s uid⟩],
      events := s.events ++ [.entityUnblocked uid ms.lastStopRadius ms.lastStopPos] } := by
  simp only [processUnblockCmd, hms, hb, if_true, entityUnblock, setMovestate]

/-- C10 amended: the command-level gating holds (a Block command is a
no-op on an agent that is already blocking, an Unblock command is a
no-op on an agent that is not blocking), every decrement emitted by an
Unblock uses exactly the recorded stop anchor (last_stop_pos,
last_stop_radius), and a Block followed by an Unblock decrements at
precisely the position and radius the increment used.  The claim fails
only in that entity_block/entity_unblock do NOT strictly alternate:
do_stop blocks unconditionally after finishing motion, even when a
Block command already made the agent a blocker (see the
counterexample). -/
theorem c10_amended (s : CoreState) (uid : ℕ) (pos3 : Vec3) (ms : Movestate)
    (p0 : Vec3) (hms : movestateGet s uid = some ms)
    (hpos : lookupA s.positions uid = some p0) :
    (ms.blocking = true → processBlockCmd s uid pos3 = s) ∧
    (ms.blocking = false → processUnblockCmd s uid = s) ∧
    (ms.blocking = true →
      (processUnblockCmd s uid).blockerOps = s.blockerOps ++
        [⟨false, ms.lastStopPos, ms.lastStopRadius, factionIdGet s uid⟩]) ∧
    (ms.blocking = false →
      (processUnblockCmd (processBlockCmd s uid pos3) uid).blockerOps =
        s.blockerOps ++
          [⟨true, ⟨pos3.x, pos3.z⟩, selRadiusGet s uid, factionIdGet s uid⟩,
           ⟨false, ⟨pos3.x, pos3.z⟩, selRadiusGet s uid, factionIdGet s uid⟩]) := by
  refine ⟨?_, ?_, ?_, ?_⟩
  · intro hb
    simp only [processBlockCmd, hms, hb, Bool.not_true, Bool.false_eq_true, if_false]
  · intro hnb
    simp only [processUnblockCmd, hms, hnb, Bool.false_eq_true, if_false]
  · intro hb
    rw [processUnblockCmd_blocking s uid ms hms hb]
  · intro hnb
    rw [processBlockCmd_not_blocking s uid pos3 ms p0 hms hnb hpos]
    have hms1 : movestateGet { s with
        positions := setA s.positions uid pos3,
        stateTable := setA s.stateTable uid { ms with blocking := true, lastStopPos := ⟨pos3.x, pos3.z⟩, lastStopRadius := selRadiusGet s uid },
        blockerOps := s.blockerOps ++
          [⟨true, ⟨pos3.x, pos3.z⟩, selRadiusGet s uid, factionIdGet s uid⟩],
        events := s.events ++ [.entityBlocked uid (selRadiusGet s uid) ⟨pos3.x, pos3.z⟩] }
        uid = some { ms with blocking := true, lastStopPos := ⟨pos3.x, pos3.z⟩, lastStopRadius := selRadiusGet s uid } := by
      have hms' : lookupA s.stateTable uid = some ms := hms
      simp only [movestateGet, lookupA_setA, hms', Option.map_some, Option.map_some']
    rw [processUnblockCmd_blocking _ uid _ hms1 rfl]
    simp [factionIdGet]

/-- Movestate and state for the C10 results: agent 1 is Moving and not
blocking, with selection radius 1 at the origin. -/
def c10State : CoreState := {
  flocks := [], stateTable := [(1, c5WitnessMs)], clickMoveEnabled := true,
  positions := [(1, ⟨0, 0, 0⟩)], selRadiuses := [(1, 1)], factionIds := [(1, 0)],
  flagsTable := [(1, EntFlags.none)], rotations := [], blockerOps := [], events := [] }

/-- C10 counterexample: a Block command on a moving, non-blocking agent
passes the gate and increments the blockers at the new position; a Stop
command right after finishes the motion and calls entity_block again
without any intervening entity_unblock, so the blocker log holds two
increments and no decrement: entity_block/entity_unblock do not
strictly alternate and the reference count is double-incremented. -/
theorem c10_counterexample :
    (movestateGet c10State 1).map (fun ms => ms.blocking) = some false ∧
    (doStop (processBlockCmd c10State 1 ⟨3, 0, 4⟩) 1).blockerOps =
      [⟨true, ⟨3, 4⟩, 1, 0⟩, ⟨true, ⟨3, 4⟩, 1, 0⟩] := by
  refine ⟨by decide, by decide⟩

/-- C10 witness: the amended statement applied to the concrete agent; a
Block then an Unblock produce one increment and one decrement at the
same position and radius. -/
theorem c10_amended_witness :
    (processUnblockCmd (processBlockCmd c10State 1 ⟨3, 0, 4⟩) 1).blockerOps =
      [⟨true, ⟨3, 4⟩, 1, 0⟩, ⟨false, ⟨3, 4⟩, 1, 0⟩] :=
  ((c10_amended c10State 1 ⟨3, 0, 4⟩ c5WitnessMs ⟨0, 0, 0⟩ (by decide)
      (by decide)).2.2.2 (by decide)).trans (by decide)

/-- The three-way equivalence of claim C1 for one movestate: the state
is Arrived or Waiting iff the velocity is approximately zero iff the
blocking flag is set. -/
def msStillVelBlockEquiv (ms : Movestate) : Bool :=
  (entStill ms == Vec2.lenLt ms.velocity EPSILON) && (entStill ms == ms.blocking)

/-- The claimed invariant over every registered agent. -/
def stillVelBlockEquiv (s : CoreState) : Bool :=
  s.stateTable.all (fun p => msStillVelBlockEquiv p.2)

/-- Movement-core state with no registered entities. -/
def c1EmptyState : CoreState := {
  flocks := [], stateTable := [], clickMoveEnabled := true,
  positions := [], selRadiuses := [], factionIds := [], flagsTable := [],
  rotations := [], blockerOps := [], events := [] }

/-- C1 counterexample: adding an entity yields an Arrived, blocking
agent with zero velocity (the invariant holds), but an Unblock command
processed at the next tick boundary clears the blocking flag while the
agent stays Arrived with zero velocity, so the claimed three-way
equivalence is broken in the post-tick state.  -/
theorem c1_counterexample :
    stillVelBlockEquiv (doAddEntity c1EmptyState 1 ⟨0, 0, 0⟩ 1 0 EntFlags.none) = true ∧
    stillVelBlockEquiv
      (processUnblockCmd (doAddEntity c1EmptyState 1 ⟨0, 0, 0⟩ 1 0 EntFlags.none) 1) = false ∧
    (movestateGet
        (processUnblockCmd (doAddEntity c1EmptyState 1 ⟨0, 0, 0⟩ 1 0 EntFlags.none) 1) 1).map
      (fun ms => (ms.state, ms.velocity, ms.blocking)) =
      some (ArrivalState.arrived, Vec2.zero, false) := by
  refine ⟨by decide, by decide, by decide⟩

theorem movestateGet_entityFinishMoving (s : CoreState) (uid : ℕ)
    (newstate : ArrivalState) (block : Bool) (ms : Movestate)
    (hms : movestateGet s uid = some ms) :
    movestateGet (entityFinishMoving s uid newstate block) uid =
      some (
        let msW := if newstate == ArrivalState.waiting then { ms with waitPrev := ms.state, waitTicksLeft := WAIT_TICKS } else ms
        let ms2 := { msW with state := newstate, velocity := Vec2.zero }
        if block then { ms2 with blocking := true, lastStopPos := posGetXZ s uid, lastStopRadius := selRadiusGet s uid } else ms2) := by
  have hms' : lookupA s.stateTable uid = some ms := hms
  unfold entityFinishMoving entityBlock
  rw [hms]
  dsimp only
  cases hb : block
  · cases hw : (newstate == ArrivalState.waiting) <;>
      cases hcomb : ((flagsGet s uid).combatable && !(newstate == ArrivalState.turning)) <;>
      simp only [hb, hw, hcomb, Bool.false_eq_true, if_false, if_true,
        movestateGet, setMovestate, lookupA_setA, hms', Option.map_some, Option.map_some']
  · cases hw : (newstate == ArrivalState.waiting) <;>
      cases hcomb : ((flagsGet s uid).combatable && !(newstate == ArrivalState.turning)) <;>
      simp only [hb, hw, hcomb, Bool.false_eq_true, if_false, if_true,
        movestateGet, setMovestate, lookupA_setA, hms', Option.map_some,
        Option.map_some', posGetXZ, selRadiusGet, factionIdGet]

/-- C1 amended: the equivalence is re-established locally whenever
motion finishes — entity_finish_moving leaves the agent in the
requested state with exactly zero velocity and, when asked to block,
with the blocking flag raised, so that for an Arrived or Waiting exit
state all three legs of the claimed equivalence hold after the call.
The equivalence is not a global per-tick invariant (see the
counterexample: an Unblock command breaks it). -/
theorem c1_amended (s : CoreState) (uid : ℕ) (newstate : ArrivalState)
    (block : Bool) (ms : Movestate) (hms : movestateGet s uid = some ms) :
    ∃ ms', movestateGet (entityFinishMoving s uid newstate block) uid = some ms' ∧
      ms'.state = newstate ∧
      ms'.velocity = Vec2.zero ∧
      (block = true → ms'.blocking = true) ∧
      entStill ms' = (newstate == ArrivalState.arrived || newstate == ArrivalState.waiting) := by
  refine ⟨_, movestateGet_entityFinishMoving s uid newstate block ms hms, ?_, ?_, ?_, ?_⟩
  · cases block <;> cases hw : (newstate == ArrivalState.waiting) <;> simp [hw]
  · cases block <;> cases hw : (newstate == ArrivalState.waiting) <;> simp [hw]
  · cases hb : block <;> cases hw : (newstate == ArrivalState.waiting) <;> simp [hw]
  · cases block <;> cases hw : (newstate == ArrivalState.waiting) <;> simp [hw, entStill]

/-- Movestate for the C3 scenario: Waiting with one tick left, having
entered the wait from Moving. -/
def c3Ms : Movestate := { c5WitnessMs with
  state := ArrivalState.waiting, waitPrev := ArrivalState.moving,
  waitTicksLeft := 1, blocking := true }

/-- State for the C3 scenario: agent 1 waiting at the origin. -/
def c3State : CoreState := {
  flocks := [], stateTable := [(1, c3Ms)], clickMoveEnabled := true,
  positions := [(1, ⟨0, 0, 0⟩)], selRadiuses := [(1, 1)], factionIds := [(1, 0)],
  flagsTable := [(1, EntFlags.none)], rotations := [], blockerOps := [], events := [] }

/-- The expiry tick of the C3 scenario: compute followed by apply. -/
def c3Step : CoreState × Patch :=
  entityComputeUpdate Ext.trivial 20 c3State 1 Vec2.zero Vec2.zero {}

def c3Post : CoreState := entityApplyUpdate Ext.trivial c3Step.1 1 c3Step.2

/-- The tick after the expiry tick. -/
def c3Step2 : CoreState × Patch :=
  entityComputeUpdate Ext.trivial 20 c3Post 1 Vec2.zero Vec2.zero {}

def c3Post2 : CoreState := entityApplyUpdate Ext.trivial c3Step2.1 1 c3Step2.2

/-- C3: when the wait expires, entity_compute_update emits a patch with
only UPDATE_SET_MOVING (next_state = the pre-wait state) and no
UPDATE_SET_STATE; in entity_apply_update the UPDATE_SET_MOVING block
sits under the preceding dangling if(UPDATE_SET_STATE && next_state in
{ARRIVED, WAITING}), so the patch is never applied: the agent stays in
Waiting with wait_ticks_left = 0 instead of resuming the previous
state, and the next tick decrements wait_ticks_left to -1 (violating
the assert(ms.wait_ticks_left > 0) of the STATE_WAITING case) and
leaves it Waiting forever. -/
theorem c3_stuck_waiting :
    c3Step.2.flags.setMoving = true ∧
    c3Step.2.nextState = ArrivalState.moving ∧
    c3Step.2.flags.setState = false ∧
    (movestateGet c3Post 1).map (fun ms => (ms.state, ms.waitTicksLeft)) =
      some (ArrivalState.waiting, 0) ∧
    (movestateGet c3Post2 1).map (fun ms => (ms.state, ms.waitTicksLeft)) =
      some (ArrivalState.waiting, -1) := by
  decide

theorem set_get_self {α : Type} : ∀ (l : List α) (i : ℕ) (a : α),
    l[i]? = some a → l.set i a = l
  | [], _, _, h => by simp at h
  | x :: xs, 0, a, h => by
    simp at h
    simp [List.set, h]
  | x :: xs, i + 1, a, h => by
    simp at h
    simp [List.set, set_get_self xs i a h]

/-- A flock is clean for a uid when it does not contain the uid and is
not empty; remove_from_flocks establishes this for every surviving
flock. -/
def flockClean (uid : ℕ) (f : Flock) : Prop :=
  f.ents.contains uid = false ∧ f.ents.isEmpty = false

theorem removeFromFlocksStep_stateTable (uid i : ℕ) (p : List Flock × CoreState) :
    (removeFromFlocksStep uid i p).2.stateTable = p.2.stateTable := by
  unfold removeFromFlocksStep flockTryRemove
  cases h : p.1[i]? with
  | none => rfl
  | some f =>
    cases hc : f.ents.contains uid <;>
      simp only [hc, Bool.false_eq_true, if_false, if_true] <;>
      split_ifs <;> rfl

theorem removeFromFlocksLoop_stateTable (uid : ℕ) :
    ∀ (i : ℕ) (p : List Flock × CoreState),
      (removeFromFlocksLoop uid i p).2.stateTable = p.2.stateTable
  | 0, _ => rfl
  | i + 1, p => by
    unfold removeFromFlocksLoop
    rw [removeFromFlocksLoop_stateTable uid i (removeFromFlocksStep uid i p),
        removeFromFlocksStep_stateTable uid i p]

theorem removeFromFlocks_eq (s : CoreState) (uid : ℕ) :
    removeFromFlocks s uid =
      { (removeFromFlocksLoop uid s.flocks.length (s.flocks, s)).2 with
        flocks := (removeFromFlocksLoop uid s.flocks.length (s.flocks, s)).1 } := by
  unfold removeFromFlocks
  rcases hq : removeFromFlocksLoop uid s.flocks.length (s.flocks, s) with ⟨fs, s2⟩
  rfl

theorem removeFromFlocks_stateTable (s : CoreState) (uid : ℕ) :
    (removeFromFlocks s uid).stateTable = s.stateTable := by
  rw [removeFromFlocks_eq]
  exact removeFromFlocksLoop_stateTable uid s.flocks.length (s.flocks, s)

theorem movestateGet_removeFromFlocks (s : CoreState) (uid u : ℕ) :
    movestateGet (removeFromFlocks s uid) u = movestateGet s u := by
  unfold movestateGet
  rw [removeFromFlocks_stateTable]

theorem removeFromFlocksStep_clean (uid i : ℕ) (p : List Flock × CoreState)
    (h : ∀ f, p.1[i]? = some f → flockClean uid f) :
    removeFromFlocksStep uid i p = p := by
  unfold removeFromFlocksStep flockTryRemove
  cases hf : p.1[i]? with
  | none => rfl
  | some f =>
    obtain ⟨h1, h2⟩ := h f hf
    simp only [h1, Bool.false_eq_true, if_false]
    simp only [h2, Bool.false_eq_true, if_false]
    rw [set_get_self p.1 i f hf]

theorem removeFromFlocksLoop_clean (uid : ℕ) :
    ∀ (i : ℕ) (p : List Flock × CoreState),
      (∀ f ∈ p.1, flockClean uid f) → removeFromFlocksLoop uid i p = p
  | 0, _, _ => rfl
  | i + 1, p, h => by
    unfold removeFromFlocksLoop
    rw [removeFromFlocksStep_clean uid i p (fun f hf => h f (List.getElem?_mem hf)),
        removeFromFlocksLoop_clean uid i p h]

theorem removeFromFlocks_clean_id (s : CoreState) (uid : ℕ)
    (h : ∀ f ∈ s.flocks, flockClean uid f) : removeFromFlocks s uid = s := by
  rw [removeFromFlocks_eq, removeFromFlocksLoop_clean uid s.flocks.length (s.flocks, s) h]

theorem vecDel_establishes (uid : ℕ) (l : List Flock) (i : ℕ) (hi : i < l.length)
    (hinv : ∀ j f, i + 1 ≤ j → l[j]? = some f → flockClean uid f) :
    (∀ j f, i ≤ j → (vecDel l i)[j]? = some f → flockClean uid f) ∧
    (vecDel l i).length = l.length - 1 := by
  unfold vecDel
  have hlast : l.getLast? = some (l.get ⟨l.length - 1, by omega⟩) := by
    rw [List.getLast?_eq_getElem?]
    exact List.getElem?_eq_getElem (by omega)
  rw [hlast]
  dsimp only
  constructor
  · intro j f hj hjf
    rw [List.getElem?_dropLast, List.length_set] at hjf
    by_cases hij : j < l.length - 1
    · rw [if_pos hij] at hjf
      by_cases hji : i = j
      · subst hji
        rw [List.getElem?_set_self (by omega)] at hjf
        obtain rfl := Option.some.inj hjf
        exact hinv (l.length - 1) _ (by omega) (List.getElem?_eq_getElem (by omega))
      · rw [List.getElem?_set_ne hji] at hjf
        exact hinv j f (by omega) hjf
    · rw [if_neg hij] at hjf
      cases hjf
  · rw [List.length_dropLast, List.length_set]

theorem removeFromFlocksStep_establishes (uid i : ℕ) (p : List Flock × CoreState)
    (hi : i < p.1.length)
    (hinv : ∀ j f, i + 1 ≤ j → p.1[j]? = some f → flockClean uid f) :
    i ≤ (removeFromFlocksStep uid i p).1.length ∧
    ∀ j f, i ≤ j → (removeFromFlocksStep uid i p).1[j]? = some f → flockClean uid f := by
  unfold removeFromFlocksStep flockTryRemove
  cases hf : p.1[i]? with
  | none =>
    rw [List.getElem?_eq_getElem hi] at hf
    simp at hf
  | some f =>
    cases hc : f.ents.contains uid
    · simp only [hc, Bool.false_eq_true, if_false]
      cases he : f.ents.isEmpty
      · simp only [Bool.false_eq_true, if_false]
        rw [set_get_self p.1 i f hf]
        refine ⟨by omega, ?_⟩
        intro j g hj hjg
        by_cases hji : j = i
        · subst hji
          rw [hf] at hjg
          obtain rfl := Option.some.inj hjg
          exact ⟨hc, he⟩
        · exact hinv j g (by omega) hjg
      · simp only [if_true]
        rw [set_get_self p.1 i f hf]
        obtain ⟨ha, hb⟩ := vecDel_establishes uid p.1 i hi hinv
        exact ⟨by omega, ha⟩
    · simp only [hc, if_true]
      have hc' : (f.ents.filter (fun u => u != uid)).contains uid = false := by simp
      cases he : (f.ents.filter (fun u => u != uid)).isEmpty
      · simp only [he, Bool.false_eq_true, if_false]
        refine ⟨by rw [List.length_set]; omega, ?_⟩
        intro j g hj hjg
        by_cases hji : j = i
        · subst hji
          rw [List.getElem?_set_self (by omega)] at hjg
          obtain rfl := Option.some.inj hjg
          exact ⟨hc', he⟩
        · rw [List.getElem?_set_ne (fun hh => hji hh.symm)] at hjg
          exact hinv j g (by omega) hjg
      · simp only [he, if_true]
        have hi' : i < (p.1.set i { f with ents := f.ents.filter (fun u => u != uid) }).length := by
          rw [List.length_set]; omega
        have hinv' : ∀ j g, i + 1 ≤ j →
            (p.1.set i { f with ents := f.ents.filter (fun u => u != uid) })[j]? = some g →
            flockClean uid g := by
          intro j g hj hjg
          rw [List.getElem?_set_ne (by omega)] at hjg
          exact hinv j g hj hjg
        obtain ⟨ha, hb⟩ := vecDel_establishes uid _ i hi' hinv'
        refine ⟨?_, ha⟩
        rw [hb, List.length_set]
        omega

theorem removeFromFlocksLoop_establishes (uid : ℕ) :
    ∀ (i : ℕ) (p : List Flock × CoreState), i ≤ p.1.length →
      (∀ j f, i ≤ j → p.1[j]? = some f → flockClean uid f) →
      ∀ f ∈ (removeFromFlocksLoop uid i p).1, flockClean uid f
  | 0, p, _, hinv => by
    intro f hf
    obtain ⟨j, hj⟩ := List.getElem?_of_mem hf
    exact hinv j f (Nat.zero_le j) hj
  | i + 1, p, hle, hinv => by
    unfold removeFromFlocksLoop
    have hi : i < p.1.length := hle
    obtain ⟨h1, h2⟩ := removeFromFlocksStep_establishes uid i p hi
      (fun j f hj hjf => hinv j f (by omega) hjf)
    exact removeFromFlocksLoop_establishes uid i (removeFromFlocksStep uid i p) h1 h2

theorem removeFromFlocks_clean (s : CoreState) (uid : ℕ) :
    ∀ f ∈ (removeFromFlocks s uid).flocks, flockClean uid f := by
  rw [removeFromFlocks_eq]
  intro f hf
  refine removeFromFlocksLoop_establishes uid s.flocks.length (s.flocks, s)
    (le_refl _) ?_ f hf
  intro j g hj hjg
  have : s.flocks[j]? = none := List.getElem?_eq_none hj
  rw [this] at hjg
  cases hjg

theorem entityFinishMoving_keys (s : CoreState) (uid : ℕ) (st : ArrivalState)
    (b : Bool) :
    (entityFinishMoving s uid st b).stateTable.map Prod.fst =
      s.stateTable.map Prod.fst := by
  unfold entityFinishMoving entityBlock
  cases hms : movestateGet s uid with
  | none => rfl
  | some ms =>
    have hms' : lookupA s.stateTable uid = some ms := hms
    cases hb : b <;>
      cases hw : (st == ArrivalState.waiting) <;>
      cases hcomb : ((flagsGet s uid).combatable && !(st == ArrivalState.turning)) <;>
      simp only [hb, hw, hcomb, Bool.false_eq_true, if_false, if_true, movestateGet,
        setMovestate, lookupA_setA, hms', Option.map_some, Option.map_some',
        setA_map_fst]

theorem stopSettle_props (s0 : CoreState) (uid : ℕ) (ms0 : Movestate)
    (hms0 : movestateGet s0 uid = some ms0)
    (hnodup0 : (s0.stateTable.map Prod.fst).Nodup) :
    (match movestateGet (removeFromFlocks s0 uid) uid with
     | none => removeFromFlocks s0 uid
     | some ms2 => setMovestate (removeFromFlocks s0 uid) uid
         { ms2 with state := ArrivalState.arrived }) =
      setMovestate (removeFromFlocks s0 uid) uid
        { ms0 with state := ArrivalState.arrived } ∧
    movestateGet (setMovestate (removeFromFlocks s0 uid) uid
        { ms0 with state := ArrivalState.arrived }) uid =
      some { ms0 with state := ArrivalState.arrived } ∧
    (∀ f ∈ (setMovestate (removeFromFlocks s0 uid) uid
        { ms0 with state := ArrivalState.arrived }).flocks, flockClean uid f) ∧
    doStop (setMovestate (removeFromFlocks s0 uid) uid
        { ms0 with state := ArrivalState.arrived }) uid =
      setMovestate (removeFromFlocks s0 uid) uid
        { ms0 with state := ArrivalState.arrived } := by
  have hA : movestateGet (removeFromFlocks s0 uid) uid = some ms0 := by
    rw [movestateGet_removeFromFlocks]
    exact hms0
  have hA' : lookupA (removeFromFlocks s0 uid).stateTable uid = some ms0 := hA
  have hget : movestateGet (setMovestate (removeFromFlocks s0 uid) uid
      { ms0 with state := ArrivalState.arrived }) uid =
      some { ms0 with state := ArrivalState.arrived } := by
    simp only [movestateGet, setMovestate, lookupA_setA, hA', Option.map_some,
      Option.map_some']
  have hclean : ∀ f ∈ (setMovestate (removeFromFlocks s0 uid) uid
      { ms0 with state := ArrivalState.arrived }).flocks, flockClean uid f :=
    fun f hf => removeFromFlocks_clean s0 uid f hf
  have hnodup2 : ((setMovestate (removeFromFlocks s0 uid) uid
      { ms0 with state := ArrivalState.arrived }).stateTable.map Prod.fst).Nodup := by
    show ((setA (removeFromFlocks s0 uid).stateTable uid
      { ms0 with state := ArrivalState.arrived }).map Prod.fst).Nodup
    rw [setA_map_fst, removeFromFlocks_stateTable]
    exact hnodup0
  refine ⟨by rw [hA], hget, hclean, ?_⟩
  unfold doStop
  rw [hget]
  have hstill2 : entStill { ms0 with state := ArrivalState.arrived } = true := by
    simp [entStill]
  simp only [hstill2, Bool.not_true, Bool.false_eq_true, if_false]
  rw [removeFromFlocks_clean_id _ uid hclean, hget]
  show { setMovestate (removeFromFlocks s0 uid) uid { ms0 with state := ArrivalState.arrived } with stateTable := setA (setMovestate (removeFromFlocks s0 uid) uid { ms0 with state := ArrivalState.arrived }).stateTable uid { ms0 with state := ArrivalState.arrived } } = setMovestate (removeFromFlocks s0 uid) uid { ms0 with state := ArrivalState.arrived }
  rw [setA_lookup_self hget hnodup2]

/-- C2: processing Stop on an agent with a movestate leaves it in the
Arrived state; if it was not already still, its velocity is zeroed and
it is registered as a blocker; afterwards it belongs to no flock; and a
second Stop immediately afterwards changes nothing at all — Stop is
idempotent. -/
theorem c2_stop_idempotent (s : CoreState) (uid : ℕ) (ms : Movestate)
    (hms : movestateGet s uid = some ms)
    (hnodup : (s.stateTable.map Prod.fst).Nodup) :
    (∃ ms', movestateGet (doStop s uid) uid = some ms' ∧
      ms'.state = ArrivalState.arrived ∧
      (entStill ms = false → ms'.velocity = Vec2.zero ∧ ms'.blocking = true)) ∧
    (∀ f ∈ (doStop s uid).flocks, f.ents.contains uid = false) ∧
    doStop (doStop s uid) uid = doStop s uid := by
  cases hstill : entStill ms
  · have hms0 : movestateGet (entityFinishMoving s uid ArrivalState.arrived true) uid =
        some { ms with state := ArrivalState.arrived, velocity := Vec2.zero, blocking := true, lastStopPos := posGetXZ s uid, lastStopRadius := selRadiusGet s uid } :=
      movestateGet_entityFinishMoving s uid ArrivalState.arrived true ms hms
    have hnodup0 : ((entityFinishMoving s uid ArrivalState.arrived
        true).stateTable.map Prod.fst).Nodup := by
      rw [entityFinishMoving_keys]
      exact hnodup
    obtain ⟨hmatch, hget, hclean, hidem⟩ := stopSettle_props _ uid _ hms0 hnodup0
    have hstop : doStop s uid =
        setMovestate (removeFromFlocks (entityFinishMoving s uid ArrivalState.arrived true) uid) uid
          { ms with state := ArrivalState.arrived, velocity := Vec2.zero, blocking := true, lastStopPos := posGetXZ s uid, lastStopRadius := selRadiusGet s uid } := by
      unfold doStop
      rw [hms]
      simp only [hstill, Bool.not_false, if_true]
      exact hmatch
    rw [hstop]
    refine ⟨⟨_, hget, rfl, fun _ => ⟨rfl, rfl⟩⟩, ?_, hidem⟩
    intro f hf
    exact (hclean f hf).1
  · obtain ⟨hmatch, hget, hclean, hidem⟩ := stopSettle_props s uid ms hms hnodup
    have hstop : doStop s uid =
        setMovestate (removeFromFlocks s uid) uid { ms with state := ArrivalState.arrived } := by
      unfold doStop
      rw [hms]
      simp only [hstill, Bool.not_true, Bool.false_eq_true, if_false]
      exact hmatch
    rw [hstop]
    refine ⟨⟨_, hget, rfl, ?_⟩, ?_, hidem⟩
    · intro habs
      exact absurd habs (by decide)
    · intro f hf
      exact (hclean f hf).1

/-- C2 witness: the Stop postconditions and idempotence applied to the
concrete moving agent 3 that is a member of the single flock. -/
theorem c2_stop_idempotent_witness :
    (∃ ms', movestateGet (doStop c9State 3) 3 = some ms' ∧
      ms'.state = ArrivalState.arrived ∧
      (entStill c5WitnessMs = false → ms'.velocity = Vec2.zero ∧ ms'.blocking = true)) ∧
    (∀ f ∈ (doStop c9State 3).flocks, f.ents.contains 3 = false) ∧
    doStop (doStop c9State 3) 3 = doStop c9State 3 :=
  c2_stop_idempotent c9State 3 c5WitnessMs (by decide) (by decide)

theorem state_ofInt_toInt (a : ArrivalState) : ArrivalState.ofInt a.toInt = a := by
  cases a <;> rfl

theorem parseVelHist_roundtrip (hist : List Vec2) (rest : List Attr) :
    parseVelHist hist.length (hist.map Attr.aVec2 ++ rest) = some (hist, rest) := by
  induction hist with
  | nil => rfl
  | cons v vs ih =>
    show parseVelHist (vs.length + 1) (Attr.aVec2 v :: (vs.map Attr.aVec2 ++ rest)) = _
    unfold parseVelHist
    rw [ih]

theorem loadFlockEnts_roundtrip (ents : List ℕ) (rest : List Attr) (f : Flock) :
    loadFlockEnts ents.length (ents.map (fun u => Attr.aInt (u : ℤ)) ++ rest) f =
      some ({ f with ents := f.ents ++ ents }, rest) := by
  induction ents generalizing f with
  | nil =>
    simp only [List.length_nil, List.map_nil, List.nil_append, List.append_nil]
    rfl
  | cons u us ih =>
    show loadFlockEnts (us.length + 1)
      (Attr.aInt (u : ℤ) :: (us.map (fun u => Attr.aInt (u : ℤ)) ++ rest)) f = _
    unfold loadFlockEnts
    rw [show ((u : ℤ)).toNat = u from Int.toNat_natCast u, ih (flockAdd f u)]
    simp [flockAdd]

theorem loadFlocks_roundtrip (fl : List Flock) (rest : List Attr) (s : CoreState) :
    loadFlocks fl.length (fl.foldr (fun f acc => saveFlock f ++ acc) [] ++ rest) s =
      some ({ s with flocks := s.flocks ++ fl }, rest) := by
  induction fl generalizing s with
  | nil =>
    simp only [List.length_nil, List.foldr_nil, List.nil_append, List.append_nil]
    rfl
  | cons f fs ih =>
    have hs : (List.foldr (fun f acc => saveFlock f ++ acc) [] (f :: fs)) ++ rest =
        Attr.aInt (f.ents.length : ℤ) ::
          (f.ents.map (fun u => Attr.aInt (u : ℤ)) ++
            (Attr.aVec2 f.targetXZ :: Attr.aInt (f.destId : ℤ) ::
              (List.foldr (fun f acc => saveFlock f ++ acc) [] fs ++ rest))) := by
      simp [saveFlock, List.append_assoc]
    rw [show (f :: fs).length = fs.length + 1 from rfl, hs]
    unfold loadFlocks
    rw [show ((f.ents.length : ℤ)).toNat = f.ents.length from Int.toNat_natCast _,
        loadFlockEnts_roundtrip f.ents _ { ents := [], targetXZ := Vec2.zero, destId := 0 }]
    show loadFlocks fs.length _ { s with flocks := s.flocks ++ [{ ents := [] ++ f.ents, targetXZ := f.targetXZ, destId := ((f.destId : ℤ)).toNat }] } = _
    rw [show ((f.destId : ℤ)).toNat = f.destId from Int.toNat_natCast _]
    rw [show ([] ++ f.ents : List ℕ) = f.ents from List.nil_append f.ents]
    rw [ih { s with flocks := s.flocks ++ [{ ents := f.ents, targetXZ := f.targetXZ, destId := f.destId }] }]
    simp

theorem saveEntsTable_ext : ∀ (l1 l2 : List (ℕ × Movestate)),
    l1.map Prod.fst = l2.map Prod.fst →
    (l2.map Prod.fst).Nodup →
    (∀ k v, (k, v) ∈ l2 → ∃ w, lookupA l1 k = some w ∧ saveMovestate w = saveMovestate v) →
    saveEntsTable l1 = saveEntsTable l2
  | [], [], _, _, _ => rfl
  | [], q :: l2, hk, _, _ => by simp at hk
  | p :: l1, [], hk, _, _ => by simp at hk
  | p :: l1, q :: l2, hk, hnd, hv => by
    simp only [List.map_cons, List.cons.injEq] at hk
    obtain ⟨hk1, hk2⟩ := hk
    have hq1 : q.1 ∉ l2.map Prod.fst := (List.nodup_cons.mp (by simpa using hnd)).1
    have hhead : lookupA (p :: l1) q.1 = some p.2 :=
      lookupA_cons_pos _ _ _ (by simp [hk1])
    obtain ⟨w, hw, hsw⟩ := hv q.1 q.2 (List.mem_cons_self _ _)
    rw [hhead] at hw
    obtain rfl := Option.some.inj hw
    have hrec : saveEntsTable l1 = saveEntsTable l2 := by
      refine saveEntsTable_ext l1 l2 hk2 (List.nodup_cons.mp (by simpa using hnd)).2 ?_
      intro k v hkv
      obtain ⟨w2, hw2, hsw2⟩ := hv k v (List.mem_cons_of_mem _ hkv)
      refine ⟨w2, ?_, hsw2⟩
      have hkmem : k ∈ l2.map Prod.fst := by
        exact List.mem_map_of_mem Prod.fst hkv
      have hne : (p.1 == k) = false := by
        have : q.1 ≠ k := fun h => hq1 (h ▸ hkmem)
        simp [hk1, this]
      rw [← lookupA_cons_neg p l1 k hne]
      exact hw2
    show Attr.aInt (p.1 : ℤ) :: (saveMovestate p.2 ++ saveEntsTable l1) =
      Attr.aInt (q.1 : ℤ) :: (saveMovestate q.2 ++ saveEntsTable l2)
    rw [hk1, hsw, hrec]

theorem loadEnt_roundtrip (t : CoreState) (uid : ℕ) (ms msT : Movestate)
    (rest : List Attr)
    (hmsT : lookupA t.stateTable uid = some msT)
    (hblk : msT.blocking = true)
    (hlen : ms.velHist.length = VEL_HIST_LEN) :
    ∃ t' ms',
      loadEnt t (Attr.aInt (uid : ℤ) :: (saveMovestate ms ++ rest)) = some (t', rest) ∧
      t'.flocks = t.flocks ∧
      t'.clickMoveEnabled = t.clickMoveEnabled ∧
      t'.stateTable = setA t.stateTable uid ms' ∧
      saveMovestate ms' = saveMovestate ms := by
  have hstream : (Attr.aInt (uid : ℤ) :: (saveMovestate ms ++ rest)) =
      Attr.aInt (uid : ℤ) :: Attr.aInt ms.state.toInt :: Attr.aFloat ms.maxSpeed ::
        Attr.aVec2 ms.velocity :: Attr.aVec3 ms.nextPos :: Attr.aVec3 ms.prevPos ::
        Attr.aQuat ms.nextRot :: Attr.aQuat ms.prevRot :: Attr.aFloat ms.step ::
        Attr.aInt ms.left :: Attr.aBool ms.blocking :: Attr.aInt ms.waitPrev.toInt ::
        Attr.aInt ms.waitTicksLeft ::
        (ms.velHist.map Attr.aVec2 ++
          (Attr.aInt ms.velHistIdx :: Attr.aInt (ms.surroundTargetUid : ℤ) ::
            Attr.aVec2 ms.surroundTargetPrev :: Attr.aVec2 ms.surroundNearestPrev ::
            Attr.aBool ms.usingSurroundField :: Attr.aVec2 ms.targetPrevPos ::
            Attr.aFloat ms.targetRange :: Attr.aQuat ms.targetDir :: rest)) := by
    simp [saveMovestate]
  cases hblkS : ms.blocking
  · rw [hstream]
    simp only [loadEnt, Int.toNat_natCast, movestateGet, modMS, setMovestate,
      entityUnblock, hmsT, lookupA_setA, Option.map_some, Option.map_some', setA_setA,
      hblkS, Bool.not_false, if_true]
    rw [← hlen, parseVelHist_roundtrip]
    simp only [movestateGet, modMS, setMovestate, lookupA_setA, hmsT, Option.map_some,
      Option.map_some', setA_setA, Int.toNat_natCast]
    exact ⟨_, _, rfl, rfl, rfl, rfl, by simp [saveMovestate, state_ofInt_toInt, hblkS]⟩
  · rw [hstream]
    simp only [loadEnt, Int.toNat_natCast, movestateGet, modMS, setMovestate,
      entityUnblock, hmsT, lookupA_setA, Option.map_some, Option.map_some', setA_setA,
      hblkS, Bool.not_true, Bool.false_eq_true, if_false]
    rw [← hlen, parseVelHist_roundtrip]
    simp only [movestateGet, modMS, setMovestate, lookupA_setA, hmsT, Option.map_some,
      Option.map_some', setA_setA, Int.toNat_natCast]
    exact ⟨_, _, rfl, rfl, rfl, rfl, by simp [saveMovestate, state_ofInt_toInt, hblkS, hblk]⟩

theorem loadEnts_roundtrip : ∀ (tbl : List (ℕ × Movestate)) (rest : List Attr)
    (t : CoreState),
    (tbl.map Prod.fst).Nodup →
    (∀ p ∈ tbl, ∃ msT, lookupA t.stateTable p.1 = some msT ∧ msT.blocking = true) →
    (∀ p ∈ tbl, p.2.velHist.length = VEL_HIST_LEN) →
    ∃ t', loadEnts tbl.length (saveEntsTable tbl ++ rest) t = some (t', rest) ∧
      t'.flocks = t.flocks ∧
      t'.clickMoveEnabled = t.clickMoveEnabled ∧
      t'.stateTable.map Prod.fst = t.stateTable.map Prod.fst ∧
      (∀ k v, (k, v) ∈ tbl →
        ∃ w, lookupA t'.stateTable k = some w ∧ saveMovestate w = saveMovestate v) ∧
      (∀ k, k ∉ tbl.map Prod.fst → lookupA t'.stateTable k = lookupA t.stateTable k)
  | [], rest, t, _, _, _ =>
    ⟨t, rfl, rfl, rfl, rfl, fun k v h => absurd h (List.not_mem_nil _),
     fun _ _ => rfl⟩
  | (k0, v0) :: tl, rest, t, hnd, hblks, hlens => by
    have hk0 : k0 ∉ tl.map Prod.fst := (List.nodup_cons.mp (by simpa using hnd)).1
    have hs : saveEntsTable ((k0, v0) :: tl) ++ rest =
        Attr.aInt (k0 : ℤ) :: (saveMovestate v0 ++ (saveEntsTable tl ++ rest)) := by
      show (Attr.aInt (k0 : ℤ) :: (saveMovestate v0 ++ saveEntsTable tl)) ++ rest = _
      simp [List.append_assoc]
    obtain ⟨msT, hmsT, hblkT⟩ := hblks (k0, v0) (List.mem_cons_self _ _)
    obtain ⟨t1, ms1, hload, hfl1, hcme1, hst1, hsm1⟩ :=
      loadEnt_roundtrip t k0 v0 msT (saveEntsTable tl ++ rest) hmsT hblkT
        (hlens (k0, v0) (List.mem_cons_self _ _))
    rw [hs]
    have hblks' : ∀ p ∈ tl, ∃ msT2, lookupA t1.stateTable p.1 = some msT2 ∧
        msT2.blocking = true := by
      intro p hp
      obtain ⟨msT2, hm, hb⟩ := hblks p (List.mem_cons_of_mem _ hp)
      refine ⟨msT2, ?_, hb⟩
      have hne : p.1 ≠ k0 := by
        intro hc
        exact hk0 (hc ▸ List.mem_map_of_mem Prod.fst hp)
      rw [hst1, lookupA_setA_ne _ _ _ _ hne]
      exact hm
    obtain ⟨t2, hload2, hfl2, hcme2, hkeys2, hvals2, hother2⟩ :=
      loadEnts_roundtrip tl rest t1 (List.nodup_cons.mp (by simpa using hnd)).2 hblks'
        (fun p hp => hlens p (List.mem_cons_of_mem _ hp))
    refine ⟨t2, ?_, ?_, ?_, ?_, ?_, ?_⟩
    · show loadEnts (tl.length + 1)
        (Attr.aInt (k0 : ℤ) :: (saveMovestate v0 ++ (saveEntsTable tl ++ rest))) t =
        some (t2, rest)
      unfold loadEnts
      rw [hload]
      exact hload2
    · rw [hfl2, hfl1]
    · rw [hcme2, hcme1]
    · rw [hkeys2, hst1, setA_map_fst]
    · intro k v hkv
      rcases List.mem_cons.mp hkv with hhead | htail
      · have hk' : k = k0 := congrArg Prod.fst hhead
        have hv' : v = v0 := congrArg Prod.snd hhead
        refine ⟨ms1, ?_, by rw [hv']; exact hsm1⟩
        rw [hk', hother2 k0 hk0, hst1, lookupA_setA, hmsT]
        rfl
      · exact hvals2 k v htail
    · intro k hk
      have hk1 : k ≠ k0 := by
        intro hc
        exact hk (by simp [hc])
      have hk2 : k ∉ tl.map Prod.fst := by
        intro hc
        exact hk (by simp [hc])
      rw [hother2 k hk2, hst1, lookupA_setA_ne _ _ _ _ hk1]

/-- C8: serializing the movement state, clearing it and re-adding the
agents (which leaves every re-created agent blocking with an empty
flock vector and the same table iteration order), loading the stream
and serializing again produces identical output; and the per-agent
record never contains last_stop_pos or last_stop_radius (serialization
is insensitive to both). -/
theorem c8_save_load_roundtrip (s t : CoreState)
    (hnodup : (s.stateTable.map Prod.fst).Nodup)
    (horder : t.stateTable.map Prod.fst = s.stateTable.map Prod.fst)
    (hflocksT : t.flocks = [])
    (hblockT : ∀ p ∈ t.stateTable, p.2.blocking = true)
    (hhist : ∀ p ∈ s.stateTable, p.2.velHist.length = VEL_HIST_LEN) :
    (∃ t2, loadState (saveState s) t = some t2 ∧ saveState t2 = saveState s) ∧
    ∀ ms p r, saveMovestate { ms with lastStopPos := p, lastStopRadius := r } =
      saveMovestate ms := by
  have hblks : ∀ p ∈ s.stateTable,
      ∃ msT, lookupA ({ flocks := t.flocks ++ s.flocks, stateTable := t.stateTable, clickMoveEnabled := s.clickMoveEnabled, positions := t.positions, selRadiuses := t.selRadiuses, factionIds := t.factionIds, flagsTable := t.flagsTable, rotations := t.rotations, blockerOps := t.blockerOps, events := t.events } : CoreState).stateTable p.1 = some msT ∧
        msT.blocking = true := by
    intro p hp
    have hmem : p.1 ∈ t.stateTable.map Prod.fst := by
      rw [horder]
      exact List.mem_map_of_mem Prod.fst hp
    have hsome : (lookupA t.stateTable p.1).isSome :=
      (lookupA_isSome_iff_mem _ _).mpr hmem
    obtain ⟨msT, hmsT⟩ := Option.isSome_iff_exists.mp hsome
    exact ⟨msT, hmsT, hblockT (p.1, msT) (lookupA_mem hmsT)⟩
  obtain ⟨t2, hload2, hfl2, hcme2, hkeys2, hvals2, hother2⟩ :=
    loadEnts_roundtrip s.stateTable []
      ({ flocks := t.flocks ++ s.flocks, stateTable := t.stateTable, clickMoveEnabled := s.clickMoveEnabled, positions := t.positions, selRadiuses := t.selRadiuses, factionIds := t.factionIds, flagsTable := t.flagsTable, rotations := t.rotations, blockerOps := t.blockerOps, events := t.events } : CoreState)
      hnodup hblks hhist
  rw [List.append_nil] at hload2
  have hloadState : loadState (saveState s) t = some t2 := by
    simp only [saveState, loadState, Int.toNat_natCast, loadFlocks_roundtrip, hload2]
  refine ⟨⟨t2, hloadState, ?_⟩, fun ms p r => rfl⟩
  have hfl : t2.flocks = s.flocks := by
    rw [hfl2]
    show t.flocks ++ s.flocks = s.flocks
    rw [hflocksT, List.nil_append]
  have hcme : t2.clickMoveEnabled = s.clickMoveEnabled := hcme2
  have hkeys : t2.stateTable.map Prod.fst = s.stateTable.map Prod.fst :=
    hkeys2.trans horder
  have hlen2 : t2.stateTable.length = s.stateTable.length := by
    have h := congrArg List.length hkeys
    simpa using h
  have hext : saveEntsTable t2.stateTable = saveEntsTable s.stateTable :=
    saveEntsTable_ext _ _ hkeys hnodup hvals2
  show Attr.aBool t2.clickMoveEnabled
      :: Attr.aInt (t2.flocks.length : ℤ)
      :: (t2.flocks.foldr (fun f acc => saveFlock f ++ acc) []
          ++ Attr.aInt (t2.stateTable.length : ℤ) :: saveEntsTable t2.stateTable) =
    Attr.aBool s.clickMoveEnabled
      :: Attr.aInt (s.flocks.length : ℤ)
      :: (s.flocks.foldr (fun f acc => saveFlock f ++ acc) []
          ++ Attr.aInt (s.stateTable.length : ℤ) :: saveEntsTable s.stateTable)
  rw [hcme, hfl, hlen2, hext]

/-- Cleared-and-replayed state for the C8 witness: agent 3 re-created
by the flushed Add command (blocking, empty flock vector). -/
def c8T : CoreState := {
  flocks := [], stateTable := [(3, { c5WitnessMs with blocking := true })],
  clickMoveEnabled := false,
  positions := [(3, ⟨0, 0, 0⟩)], selRadiuses := [(3, 1)], factionIds := [(3, 0)],
  flagsTable := [(3, EntFlags.none)], rotations := [], blockerOps := [], events := [] }

/-- C8 witness: the round trip applied to the concrete one-flock,
one-agent state. -/
theorem c8_save_load_roundtrip_witness :
    (∃ t2, loadState (saveState c9State) c8T = some t2 ∧
      saveState t2 = saveState c9State) ∧
    ∀ ms p r, saveMovestate { ms with lastStopPos := p, lastStopRadius := r } =
      saveMovestate ms :=
  c8_save_load_roundtrip c9State c8T (by decide) (by decide) (by decide)
    (by decide) (by decide)

/-- C1 witness: the amended postcondition applied to the concrete
moving agent, finishing into Arrived as a blocker. -/
theorem c1_amended_witness :
    ∃ ms', movestateGet (entityFinishMoving c10State 1 ArrivalState.arrived true) 1 = some ms' ∧
      ms'.state = ArrivalState.arrived ∧
      ms'.velocity = Vec2.zero ∧
      (true = true → ms'.blocking = true) ∧
      entStill ms' =
        (ArrivalState.arrived == ArrivalState.arrived ||
          ArrivalState.arrived == ArrivalState.waiting) :=
  c1_amended c10State 1 ArrivalState.arrived true c5WitnessMs (by decide)

end PFMove
